import Mathlib

/-!
Verification of the synthetic-dataset pipeline (engine/generate.py,
engine/artifacts.py, engine/registry.py, engine/evaluate.py) against its
natural-language specification.

The Python code is shallowly embedded: configuration objects and JSON
documents become the inductive type `Val`, Python floats are modelled as
exact rationals, numpy arrays become lists of cells tagged with a dtype
kind, and the filesystem side effects of each stage are made explicit
(state in, `Except`-wrapped state out).  Third-party primitives that the
claims use only through their interface contract (SHA-256 digests and the
numpy `RandomState` stream) are modelled by concrete deterministic
stand-ins; every property proved below depends only on the contract
(determinism, and `permutation n` being a permutation of `0..n-1`), never
on particular hash or stream values.
-/

/-- Python's `round` (banker's rounding, round half to even) on an exact
rational, as used by `int(round(ratio * n))` in `engine/generate.py`. -/
def pyRound (q : ℚ) : Int :=
  if q - (⌊q⌋ : ℚ) < 1/2 then ⌊q⌋
  else if 1/2 < q - (⌊q⌋ : ℚ) then ⌊q⌋ + 1
  else if ⌊q⌋ % 2 = 0 then ⌊q⌋ else ⌊q⌋ + 1

/-- Truncation toward zero, Python's `int(float)` behaviour. -/
def ratTrunc (q : ℚ) : Int :=
  if 0 ≤ q then ⌊q⌋ else -⌊-q⌋

/-- JSON-like values: the shape of loaded YAML/JSON configuration objects
and documents flowing through the pipeline.  Python floats are modelled as
exact rationals. -/
inductive Val where
  | vNull : Val
  | vBool : Bool → Val
  | vInt : Int → Val
  | vFloat : ℚ → Val
  | vStr : String → Val
  | vList : List Val → Val
  | vDict : List (String × Val) → Val
  deriving Repr

mutual

/-- Deep structural equality on `Val`, Python's `==` on loaded JSON. -/
def Val.beq : Val → Val → Bool
  | .vNull, .vNull => true
  | .vBool a, .vBool b => a == b
  | .vInt a, .vInt b => a == b
  | .vFloat a, .vFloat b => a == b
  | .vStr a, .vStr b => a == b
  | .vList a, .vList b => Val.beqList a b
  | .vDict a, .vDict b => Val.beqDict a b
  | _, _ => false

def Val.beqList : List Val → List Val → Bool
  | [], [] => true
  | x :: xs, y :: ys => Val.beq x y && Val.beqList xs ys
  | _, _ => false

def Val.beqDict : List (String × Val) → List (String × Val) → Bool
  | [], [] => true
  | (k, v) :: xs, (k2, v2) :: ys => k == k2 && Val.beq v v2 && Val.beqDict xs ys
  | _, _ => false

end

/-- Association-list lookup, Python `d.get(k)` / `d[k]` on a dict whose
keys are strings (first binding wins; Python dicts have unique keys). -/
def lookupStr {α : Type} : List (String × α) → String → Option α
  | [], _ => Option.none
  | (k2, v) :: rest, k => if k2 = k then some v else lookupStr rest k

/-- Python `k in d` for a string-keyed dict. -/
def containsStr {α : Type} (l : List (String × α)) (k : String) : Bool :=
  (lookupStr l k).isSome

/-- Python `d[k] = v`: replace the binding in place if the key exists,
otherwise append it (insertion order preserved, as for Python dicts). -/
def dictSet {α : Type} : List (String × α) → String → α → List (String × α)
  | [], k, v => [(k, v)]
  | (k2, v2) :: rest, k, v =>
      if k2 = k then (k, v) :: rest else (k2, v2) :: dictSet rest k v

/-- Python truthiness (`bool(v)`) for JSON-like values. -/
def pyTruthy : Val → Bool
  | .vNull => false
  | .vBool b => b
  | .vInt n => n != 0
  | .vFloat q => q != 0
  | .vStr s => s.length != 0
  | .vList l => !l.isEmpty
  | .vDict d => !d.isEmpty

/-- Python `int(v)`: ints pass through, bools coerce to 0/1, floats
truncate toward zero, strings parse as (optionally signed) integer
literals, everything else raises. -/
def pyToInt : Val → Except String Int
  | .vBool b => .ok (if b then 1 else 0)
  | .vInt n => .ok n
  | .vFloat q => .ok (ratTrunc q)
  | .vStr s =>
      match s.trim.toInt? with
      | some n => .ok n
      | Option.none => .error "invalid literal for int()"
  | _ => .error "int() argument must be a number or string"

/-- Parse a decimal literal `[sign] digits [. digits]`, the fragment of
Python `float(str)` the configuration files can exercise. -/
def parseDecimal (s : String) : Option ℚ :=
  let s := s.trim
  let (sign, body) :=
    if s.startsWith "-" then ((-1 : ℚ), s.drop 1)
    else if s.startsWith "+" then ((1 : ℚ), s.drop 1)
    else ((1 : ℚ), s)
  match body.splitOn "." with
  | [intPart] =>
      if intPart.length > 0 ∧ intPart.all Char.isDigit then
        some (sign * (intPart.toNat! : ℚ))
      else Option.none
  | [intPart, fracPart] =>
      if (intPart.length > 0 ∨ fracPart.length > 0) ∧
          intPart.all Char.isDigit ∧ fracPart.all Char.isDigit then
        some (sign * ((intPart.foldl (fun a c => a * 10 + (c.toNat - 48)) 0 : Nat) +
          (fracPart.foldl (fun a c => a * 10 + (c.toNat - 48)) 0 : Nat) /
            ((10 : ℚ) ^ fracPart.length)))
      else Option.none
  | _ => Option.none

/-- Python `float(v)`: numbers and bools coerce, decimal strings parse,
everything else raises. -/
def pyToFloat : Val → Except String ℚ
  | .vBool b => .ok (if b then 1 else 0)
  | .vInt n => .ok n
  | .vFloat q => .ok q
  | .vStr s =>
      match parseDecimal s with
      | some q => .ok q
      | Option.none => .error "could not convert string to float"
  | _ => .error "float() argument must be a string or a number"

/-- Python numeric coercion inside arithmetic (`abs(x - y)`): bools and
numbers are numeric, everything else is a TypeError.  This is distinct
from `float()`, which additionally parses strings. -/
def pyArithNum : Val → Except String ℚ
  | .vBool b => .ok (if b then 1 else 0)
  | .vInt n => .ok n
  | .vFloat q => .ok q
  | _ => .error "TypeError: unsupported operand type"

/-- Split a character list on `'/'` (the semantics of
`"...".split("/")` for a one-character separator). -/
def splitComponents : List Char → List (List Char)
  | [] => [[]]
  | c :: rest =>
      let r := splitComponents rest
      if c = '/' then [] :: r
      else
        match r with
        | [] => [[c]]
        | comp :: comps => (c :: comp) :: comps

/-- `os.path.basename(os.path.normpath(p))`: the last nonempty
slash-separated component of the path (`.`/`..` collapsing is not needed
by the pipeline, which only ever takes the final component of a
`datasets/<name>` or `runs/<name>/<version>` style path). -/
def basenameNormpath (s : String) : String :=
  match ((splitComponents s.toList).filter (fun c => ¬ c.isEmpty)).getLast? with
  | some c => String.mk c
  | Option.none => if s.toList.head? = some '/' then "" else "."

/-- Python `str.lower()` (ASCII case folding suffices for the
column-name heuristics), over the character list so that it evaluates
inside the kernel. -/
def pyLower (s : String) : String := String.mk (s.toList.map Char.toLower)

/-- Code-point lexicographic comparison, Python `<=` on strings. -/
def charListLe : List Char → List Char → Bool
  | [], _ => true
  | _ :: _, [] => false
  | c :: cs, d :: ds =>
      if c.val < d.val then true
      else if d.val < c.val then false
      else charListLe cs ds

def strLe (a b : String) : Bool := charListLe a.toList b.toList

/-- Python `str.endswith` over character lists (the iterator-based
`String.endsWith` does not evaluate inside the kernel). -/
def strEndsWith (s t : String) : Bool := t.toList.isSuffixOf s.toList

/-- Insert a string into a sorted list, keeping it sorted. -/
def insertSorted (x : String) : List String → List String
  | [] => [x]
  | y :: ys => if strLe x y then x :: y :: ys else y :: insertSorted x ys

/-- Python `sorted` on a list of strings (insertion sort; stable and
deterministic, which is all the pipeline relies on). -/
def sortStrings (l : List String) : List String := l.foldr insertSorted []

/-- Deterministic stand-in for the SHA-256-derived integers of
`engine/generate.py` (`_deterministic_col_hash`, `_derive_seed`): a
polynomial string hash.  The claims depend only on the digest being a
deterministic function of the input string, never on its value. -/
def strHash (s : String) : Nat :=
  s.foldl (fun h c => (h * 31 + c.toNat) % 2 ^ 64) 5381

/-- `_deterministic_col_hash(name)`: first 4 bytes of SHA-256 of the
column name as an unsigned integer (modelled via `strHash`). -/
def _deterministic_col_hash (name : String) : Nat := strHash name % 2 ^ 32

/-- `_derive_seed(dataset_dir, run_dir)`: hash of
`"<dataset_name>:<version>"` folded to 32 bits, where the two components
are the basenames of the two directories. -/
def _derive_seed (dataset_dir run_dir : String) : Nat :=
  strHash (basenameNormpath dataset_dir ++ ":" ++ basenameNormpath run_dir) % 2 ^ 32

/-- Deterministic stand-in for numpy's seeded Mersenne-Twister stream: a
64-bit linear congruential step.  Only determinism and the permutation
property proved below are used by the claims. -/
def rngNext (s : Nat) : Nat :=
  (6364136223846793005 * s + 1442695040888963407) % 2 ^ 64

/-- One pass of the Fisher–Yates-style draw underlying the
`RandomState.permutation` model: repeatedly pick a pseudo-random index of
the remaining pool and move that element to the output.  `fuel` bounds
the recursion; `shuffle` supplies `fuel = pool.length`. -/
def shuffleFuel : Nat → Nat → List Nat → List Nat
  | 0, _, _ => []
  | fuel + 1, s, pool =>
      if pool.length = 0 then []
      else
        let i := rngNext s % pool.length
        pool.getD i 0 :: shuffleFuel fuel (rngNext s) (pool.eraseIdx i)

/-- Model of drawing a pseudo-random permutation of `pool`. -/
def shuffle (s : Nat) (pool : List Nat) : List Nat :=
  shuffleFuel pool.length s pool

/-- `rs.permutation(n)`: a pseudo-random permutation of `0..n-1`,
together with the advanced generator state. -/
def permutation (s : Nat) (n : Nat) : List Nat × Nat :=
  (shuffle (rngNext s) (List.range n), rngNext s)

/-- `rs.choice(pool, size)`: `size` draws with replacement from `pool`;
numpy raises when the pool is empty and at least one sample is taken. -/
def choice {α : Type} [Inhabited α] (s : Nat) (pool : List α) (size : Nat) :
    Except String (List α × Nat) :=
  if pool.isEmpty ∧ 0 < size then
    .error "a cannot be empty unless no samples are taken"
  else
    .ok ((List.range size).map (fun i => pool.getD (rngNext (s + i) % pool.length) default),
      rngNext (s + size))

/-- `rs.uniform(lo, hi, size)`: `size` pseudo-random rationals in
`[lo, hi]`, together with the advanced generator state. -/
def uniform (s : Nat) (lo hi : ℚ) (size : Nat) : List ℚ × Nat :=
  ((List.range size).map
      (fun i => lo + (hi - lo) * ((rngNext (s + i) % 2 ^ 32 : Nat) : ℚ) / 2 ^ 32),
    rngNext (s + size))

/-- numpy dtype kind characters as used by `_apply_missingness`
(`arr.dtype.kind in ("f", "i", "u")`): float, signed int, unsigned int,
object, and fixed-width unicode. -/
inductive DtypeKind where
  | f : DtypeKind
  | i : DtypeKind
  | u : DtypeKind
  | obj : DtypeKind
  | ustr : DtypeKind
  deriving DecidableEq, Repr

/-- One array element: an integer, an exact rational standing for a
float, the float NaN sentinel, a string, or Python `None`. -/
inductive Cell where
  | int : Int → Cell
  | float : ℚ → Cell
  | nan : Cell
  | str : String → Cell
  | null : Cell
  deriving DecidableEq, Repr

/-- A one-dimensional numpy array: a dtype kind plus its elements. -/
structure NpArray where
  kind : DtypeKind
  vals : List Cell
  deriving DecidableEq, Repr

/-- `arr.astype(float)` element-wise on a numeric array. -/
def cellToFloat : Cell → Cell
  | .int n => .float n
  | .float q => .float q
  | c => c

/-- `arr[idx] = c` for a list of positions `idx`. -/
def setCells (vals : List Cell) (idx : List Nat) (c : Cell) : List Cell :=
  vals.mapIdx (fun j v => if idx.contains j then c else v)

/-- `_apply_missingness(rs, arr, ratio)` from `engine/generate.py`:
overwrite the first `int(round(ratio * n))` entries of the column's own
pseudo-random permutation of positions with a missing marker — NaN after
a cast to float for float/int/uint arrays, `None` after a cast to object
for everything else. -/
def _apply_missingness (rs : Nat) (arr : NpArray) (ratio : ℚ) : NpArray :=
  if ratio ≤ 0 then arr
  else
    let n := arr.vals.length
    let k : Int := pyRound (ratio * (n : ℚ))
    if k ≤ 0 then arr
    else
      let idx := (permutation rs n).fst.take k.toNat
      if arr.kind = .f ∨ arr.kind = .i ∨ arr.kind = .u then
        ⟨.f, setCells (arr.vals.map cellToFloat) idx .nan⟩
      else
        ⟨.obj, setCells arr.vals idx .null⟩

/-- The fixed `merchant_category` vocabulary of `_generate_column`. -/
def merchantCategories : List String :=
  ["Retail", "Travel", "Food", "Grocery", "Utilities", "Health",
    "Entertainment", "Online", "Automotive", "Education"]

/-- Zero-padded two-digit rendering of `i % 60`, the minute field of the
deterministic timestamp strings. -/
def twoDigit (m : Nat) : String :=
  (if m < 10 then "0" else "") ++ toString m

/-- `_generate_column(rs, name, rows)` from `engine/generate.py`:
name-keyed heuristic generation.  Returns the generated array together
with the advanced generator state; branches that draw from the stream
(`choice`, `uniform`) advance it, purely deterministic branches do not.
`account_id` draws `rows` samples from a pool of
`min(5000, rows // 10)` candidate ids and therefore fails on an empty
pool exactly as `rs.choice` does. -/
def _generate_column (rs : Nat) (name : String) (rows : Nat) :
    Except String (NpArray × Nat) :=
  let lname := pyLower name
  if lname = "account_id" then
    let n_accounts := min 5000 (rows / 10)
    do
      let (xs, rs') ← choice rs ((List.range n_accounts).map (fun j => (100000 + j : Int))) rows
      return (⟨.i, xs.map Cell.int⟩, rs')
  else if lname = "merchant_category" then
    do
      let (xs, rs') ← choice rs merchantCategories rows
      return (⟨.ustr, xs.map Cell.str⟩, rs')
  else if lname = "transaction_id" ∨ lname = "id" ∨
      (strEndsWith lname "_id" ∧ lname ≠ "account_id") then
    .ok (⟨.i, (List.range rows).map (fun j => Cell.int (j + 1))⟩, rs)
  else if lname = "amount" ∨ lname = "txn_amount" then
    let (xs, rs') := uniform rs 1 500 rows
    .ok (⟨.f, xs.map (fun q => Cell.float (pyRound (q * 100) / 100))⟩, rs')
  else if lname = "is_fraud" ∨ lname = "fraud" then
    .ok (⟨.i, (List.range rows).map (fun _ => Cell.int 0)⟩, rs)
  else if lname = "timestamp" ∨ lname = "datetime" ∨ lname = "event_time" ∨ lname = "date" then
    .ok (⟨.obj, (List.range rows).map
      (fun j => Cell.str ("2025-01-01T00:" ++ twoDigit (j % 60) ++ ":00Z"))⟩, rs)
  else
    .ok (⟨.obj, (List.range rows).map (fun j => Cell.str ("val_" ++ toString j))⟩, rs)

/-- `_require_configs(configs)`: the three YAML documents must be present
and non-`None`. -/
def _require_configs (configs : List (String × Val)) : Except String Unit :=
  let check (key : String) : Except String Unit :=
    match lookupStr configs key with
    | Option.none => .error ("Missing required config: " ++ key)
    | some .vNull => .error ("Missing required config: " ++ key)
    | some _ => .ok ()
  do
    check "dataset.yaml"
    check "schema.yaml"
    check "evolution.yaml"

/-- Fold a legacy `columns` list (strings or `{name: ...}` mappings) into
a name list, as in the `elif isinstance(cols, list)` branch of
`_extract_columns`. -/
def legacyColumnNames : List Val → Except String (List String)
  | [] => .ok []
  | .vStr s :: rest => do
      let ns ← legacyColumnNames rest
      return s :: ns
  | .vDict d :: rest =>
      match lookupStr d "name" with
      | some (.vStr s) => do
          let ns ← legacyColumnNames rest
          return s :: ns
      | _ => .error "Invalid column entry in schema.yaml; expected string or dict with 'name'"
  | _ :: _ => .error "Invalid column entry in schema.yaml; expected string or dict with 'name'"

/-- `_extract_columns(schema_cfg)`: mapping form gives the lexicographically
sorted key set, legacy list form preserves the given order; empty column
sets are rejected. -/
def _extract_columns (schema_cfg : Val) : Except String (List String) :=
  match schema_cfg with
  | .vDict sc =>
      match lookupStr sc "columns" with
      | Option.none => .error "schema.yaml must contain 'columns'"
      | some (.vDict cols) =>
          let names := sortStrings (cols.map Prod.fst)
          if names.isEmpty then .error "schema.yaml 'columns' mapping is empty"
          else .ok names
      | some (.vList cols) => do
          let names ← legacyColumnNames cols
          if names.isEmpty then .error "schema.yaml 'columns' list is empty"
          else .ok names
      | some _ => .error "schema.yaml 'columns' must be a mapping or a list"
  | _ => .error "schema.yaml must contain 'columns'"

/-- The alias resolution step of `_extract_row_count`: `row_count` unless
it is absent or `None`, else `rows`, else `None`. -/
def resolveRowCountAlias (d : List (String × Val)) : Val :=
  match lookupStr d "row_count" with
  | some .vNull => (lookupStr d "rows").getD .vNull
  | some v => v
  | Option.none => (lookupStr d "rows").getD .vNull

/-- `_extract_row_count(dataset_cfg)`: the resolved alias value is pushed
through Python `int(...)` and the result must be positive. -/
def _extract_row_count (dataset_cfg : Val) : Except String Int :=
  match dataset_cfg with
  | .vDict d =>
      match resolveRowCountAlias d with
      | .vNull => .error "dataset.yaml must define 'row_count' (or 'rows')"
      | v =>
          match pyToInt v with
          | .error _ => .error "row_count must be an integer"
          | .ok rc_int =>
              if rc_int ≤ 0 then .error "row_count must be > 0" else .ok rc_int
  | _ => .error "dataset.yaml must be a mapping"

/-- The fraud-rate resolution of `_extract_evolution`, before numeric
validation: the `weekly_changes` guard (present, a list, nonempty) is
tried first and, when it matches, commits — only then is a top-level
`fraud_rate` key consulted, and only failing that a `fraud: {rate: ...}`
mapping.  Python's unassigned and `None`-valued outcomes coincide
downstream and are both `Option.none` here. -/
def rawFraudRate (d : List (String × Val)) : Option Val :=
  let fallback : Option Val :=
    if containsStr d "fraud_rate" then lookupStr d "fraud_rate"
    else
      match lookupStr d "fraud" with
      | some (.vDict fd) => lookupStr fd "rate"
      | _ => Option.none
  match lookupStr d "weekly_changes" with
  | some (.vList (first :: _)) =>
      match first with
      | .vDict fw => lookupStr fw "fraud_rate"
      | _ => Option.none
  | some (.vList []) => fallback
  | some _ => fallback
  | Option.none => fallback

/-- Resolved evolution parameters: the validated fraud rate and the raw
per-column missingness mapping (re-coerced with `float()` at use). -/
structure Evolution where
  fraud_rate : Option ℚ
  missingness : List (String × Val)
  deriving Repr

/-- The per-ratio validation loop over the `missingness` mapping. -/
def validateRatios : List (String × Val) → Except String Unit
  | [] => .ok ()
  | (_, v) :: rest =>
      match pyToFloat v with
      | .error _ => .error "missingness ratios must be numeric"
      | .ok r =>
          if r < 0 ∨ 1 < r then .error "missingness ratio must be in [0,1]"
          else validateRatios rest

/-- The fraud-rate phase of `_extract_evolution`: resolve the raw value
by the nesting conventions, then coerce with `float()` and range-check,
with Python `None` meaning no configured rate. -/
def extractFraudRate (d : List (String × Val)) : Except String (Option ℚ) :=
  match rawFraudRate d with
  | Option.none => .ok Option.none
  | some .vNull => .ok Option.none
  | some v =>
      match pyToFloat v with
      | .error _ => .error "fraud_rate must be numeric"
      | .ok q =>
          if q < 0 ∨ 1 < q then .error "fraud_rate must be in [0,1]"
          else .ok (some q)

/-- The missingness phase of `_extract_evolution`: a present value must
be a mapping with numeric ratios in `[0,1]`; absent or `None` collapses
to the empty mapping (`missingness or {}`). -/
def extractMissingness (d : List (String × Val)) :
    Except String (List (String × Val)) :=
  match lookupStr d "missingness" with
  | Option.none => .ok []
  | some .vNull => .ok []
  | some (.vDict m) =>
      match validateRatios m with
      | .error e => .error e
      | .ok _ => .ok m
  | some _ => .error "missingness must be a mapping of column_name -> ratio"

/-- `_extract_evolution(evo_cfg)` from `engine/generate.py`. -/
def _extract_evolution (evo_cfg : Val) : Except String Evolution :=
  match evo_cfg with
  | .vDict d => do
      let fraud_rate ← extractFraudRate d
      let missingness ← extractMissingness d
      return ⟨fraud_rate, missingness⟩
  | _ => .error "evolution.yaml must be a mapping"

/-- The body of the per-column loop of `generate_dataset`: derive the
column's own generator state from the base seed and the column-name hash,
generate values by the name heuristic, overwrite a fraud/label column
from its own permutation (requiring a configured rate), then apply
configured missingness.  Column names never collide with generator state:
everything is a function of `(seed, evo, rows, name)`. -/
def processColumn (seed : Nat) (evo : Evolution) (rows : Nat) (name : String) :
    Except String NpArray := do
  let col_hash := _deterministic_col_hash name
  let rs_col := (seed + col_hash) % 2 ^ 32
  let (col_vals, rs1) ← _generate_column rs_col name rows
  let (col_vals, rs2) ←
    if pyLower name = "is_fraud" ∨ pyLower name = "fraud" then
      match evo.fraud_rate with
      | Option.none =>
          throw "evolution.yaml must define fraud rate when 'is_fraud' column is present"
      | some rate =>
          let k : Int := pyRound (rate * (rows : ℚ))
          let prm := permutation rs1 rows
          let idx := prm.fst.take k.toNat
          pure ((⟨.i, (List.range rows).map
            (fun j => if idx.contains j then Cell.int 1 else Cell.int 0)⟩ : NpArray),
            prm.snd)
    else pure (col_vals, rs1)
  match lookupStr evo.missingness name with
  | Option.none => return col_vals
  | some .vNull => return col_vals
  | some mv => do
      let r ← pyToFloat mv
      return _apply_missingness rs2 col_vals r

/-- The column loop of `generate_dataset`, building the output table in
schema order. -/
def generateColumns (seed : Nat) (evo : Evolution) (rows : Nat) :
    List String → Except String (List (String × NpArray))
  | [] => .ok []
  | name :: rest => do
      let arr ← processColumn seed evo rows name
      let t ← generateColumns seed evo rows rest
      return (name, arr) :: t

/-- `generate_dataset(dataset_dir, configs, run_dir)` from
`engine/generate.py`, up to the in-memory table: requires the three
configuration documents, extracts columns / row count / evolution
parameters, derives the base seed from the dataset and run basenames, and
produces one array per schema column in schema order.  The final
`_write_dataframe` step is filesystem I/O (temp file plus atomic rename)
and is modelled by returning the fully constructed table. -/
def generate_dataset (dataset_dir : String) (configs : List (String × Val))
    (run_dir : String) : Except String (List (String × NpArray)) := do
  _require_configs configs
  let columns ← _extract_columns ((lookupStr configs "schema.yaml").getD .vNull)
  let rows ← _extract_row_count ((lookupStr configs "dataset.yaml").getD .vNull)
  let evo ← _extract_evolution ((lookupStr configs "evolution.yaml").getD .vNull)
  let seed := _derive_seed dataset_dir run_dir
  generateColumns seed evo rows.toNat columns

/-- Contents of one file in a run directory: a parsed JSON document for
the `.json` artifacts, or an opaque binary payload for the data file. -/
inductive FileContent where
  | json : Val → FileContent
  | blob : FileContent
  deriving Repr

/-- A run directory: file name to content. -/
abbrev RunDirFS := List (String × FileContent)

/-- The manifest composed by `persist_artifacts`: dataset basename,
resolved run directory, finalization timestamp, and the fixed
logical-name to file-name map. -/
def mkManifest (dataset_dir run_dir now_utc data_file : String) : Val :=
  .vDict
    [("dataset", .vStr (basenameNormpath dataset_dir)),
     ("run_dir", .vStr run_dir),
     ("finalized_at_utc", .vStr now_utc),
     ("artifacts", .vDict
        [("data", .vStr data_file),
         ("configs_snapshot", .vStr "configs_snapshot.json"),
         ("run_metadata", .vStr "run_metadata.json"),
         ("validation_report", .vStr "validation_report.json"),
         ("evaluation_report", .vStr "evaluation_report.json")])]

/-- The artifact-presence loop of `persist_artifacts`. -/
def checkArtifacts (fs : RunDirFS) : List String → Except String Unit
  | [] => .ok ()
  | fname :: rest =>
      if containsStr fs fname then checkArtifacts fs rest
      else .error ("Missing required artifact: " ++ fname)

/-- `persist_artifacts(dataset_dir, configs, run_dir)` from
`engine/artifacts.py` over an explicit run-directory state.  The
wall-clock timestamp is the explicit `now_utc` input, and `Path.resolve`
of the run directory is modelled as the provided path.  Checks run in
source order: the one-shot finalization guard first, then the
exactly-one-data-file invariant, then the four required artifacts, then
deep equality of the persisted configuration snapshot against the
supplied configs; only after every check passes is the manifest written
(atomically in the source: temp file, fsync, rename).  An error performs
no write, which the `Except` state threading makes structural. -/
def persist_artifacts (dataset_dir : String) (configs : Val) (run_dir : String)
    (now_utc : String) (fs : RunDirFS) : Except String RunDirFS := do
  if containsStr fs "final_metadata.json" then
    throw ("Run is already finalized: " ++ run_dir ++ "/final_metadata.json")
  let has_parquet := containsStr fs "data.parquet"
  let has_csv := containsStr fs "data.csv"
  if has_parquet ∧ has_csv then
    throw "Ambiguous data files: both data.parquet and data.csv exist"
  if ¬ has_parquet ∧ ¬ has_csv then
    throw "Missing data file: neither data.parquet nor data.csv exist"
  let data_file := if has_parquet then "data.parquet" else "data.csv"
  checkArtifacts fs
    ["configs_snapshot.json", "run_metadata.json", "validation_report.json",
     "evaluation_report.json"]
  let snapshot ←
    match lookupStr fs "configs_snapshot.json" with
    | some (.json v) => pure v
    | _ => throw "Failed to parse configs_snapshot.json"
  if ¬ Val.beq snapshot configs then
    throw "configs_snapshot.json does not match provided configs"
  return dictSet fs "final_metadata.json"
    (.json (mkManifest dataset_dir run_dir now_utc data_file))

/-- The duplicate-version scan of `update_registry_from_final_metadata`:
`v.get("version") == version` over the recorded version entries; a
non-mapping entry raises (`AttributeError` in Python). -/
def versionPresent (version : String) : List Val → Except String Bool
  | [] => .ok false
  | .vDict vd :: rest =>
      if (match lookupStr vd "version" with
          | some (.vStr s) => decide (s = version)
          | _ => false) then .ok true
      else versionPresent version rest
  | _ :: _ => .error "AttributeError: version entry is not a mapping"

/-- The version record appended to a dataset's registry entry. -/
def mkVersionRecord (version run_dir finalized_at : String) : Val :=
  .vDict
    [("version", .vStr version),
     ("run_dir", .vStr run_dir),
     ("finalized_at_utc", .vStr finalized_at)]

/-- `update_registry_from_final_metadata` from `engine/registry.py`,
over the two parsed documents (the surrounding file reads and the atomic
sorted-keys rewrite are I/O; a raised error writes nothing).  Requires
the three manifest fields to be present and truthy, derives the version
from the run directory's final path component, requires the registry to
already hold an entry for the dataset, rejects a duplicate version, and
otherwise appends `{version, run_dir, finalized_at_utc}` and repoints
`latest_version` at the version just appended. -/
def update_registry_from_final_metadata (final_meta registry : Val) :
    Except String Val := do
  let fm ←
    match final_meta with
    | .vDict fm => pure fm
    | _ => throw "AttributeError: final metadata is not a mapping"
  let dataset_v := (lookupStr fm "dataset").getD .vNull
  let run_dir_v := (lookupStr fm "run_dir").getD .vNull
  let finalized_v := (lookupStr fm "finalized_at_utc").getD .vNull
  if ¬ pyTruthy dataset_v ∨ ¬ pyTruthy run_dir_v ∨ ¬ pyTruthy finalized_v then
    throw "final_metadata.json missing required fields (dataset, run_dir, finalized_at_utc)"
  let (dataset, run_dir, finalized_at) ←
    match dataset_v, run_dir_v, finalized_v with
    | .vStr d, .vStr r, .vStr f => pure (d, r, f)
    | _, _, _ => throw "TypeError: manifest fields must be strings"
  let version := basenameNormpath run_dir
  if version = "" then
    throw "Could not derive version from run_dir in final_metadata.json"
  let reg ←
    match registry with
    | .vDict reg => pure reg
    | _ => throw "AttributeError: registry is not a mapping"
  let datasets ←
    match lookupStr reg "datasets" with
    | some (.vDict ds) => pure ds
    | _ => throw "registry/datasets.json must contain a 'datasets' object"
  let entry ←
    match lookupStr datasets dataset with
    | some e => pure e
    | Option.none =>
        throw ("Dataset '" ++ dataset ++ "' not found in registry; refusing to create implicit entry")
  let entryD ←
    match entry with
    | .vDict e => pure e
    | _ => throw "AttributeError: registry entry is not a mapping"
  let versions ←
    match lookupStr entryD "versions" with
    | Option.none => pure ([] : List Val)
    | some .vNull => pure ([] : List Val)
    | some (.vList vs) => pure vs
    | some _ => throw "'versions' must be a list in registry entry"
  let dup ← versionPresent version versions
  if dup then
    throw ("Version '" ++ version ++ "' already present in registry for dataset '" ++ dataset ++ "'")
  let newVersions := versions ++ [mkVersionRecord version run_dir finalized_at]
  let entryD := dictSet entryD "versions" (.vList newVersions)
  let entryD := dictSet entryD "latest_version" (.vStr version)
  return .vDict (dictSet reg "datasets"
    (.vDict (dictSet datasets dataset (.vDict entryD))))

/-- `pd.isna` on one cell: NaN and `None` are missing. -/
def cellIsNa : Cell → Bool
  | .nan => true
  | .null => true
  | _ => false

/-- `np.issubdtype(dtype, np.number)` over the modelled kinds. -/
def isNumericKind : DtypeKind → Bool
  | .f => true
  | .i => true
  | .u => true
  | _ => false

/-- Numeric value of a (non-missing) cell. -/
def cellNum : Cell → ℚ
  | .int n => n
  | .float q => q
  | _ => 0

/-- Python `round(x, 6)` on an exact rational. -/
def round6 (q : ℚ) : ℚ := (pyRound (q * 10 ^ 6) : ℚ) / 10 ^ 6

/-- Minimum of a nonempty numeric list (the guard in `evaluate_dataset`
ensures at least one non-missing value before this is consulted). -/
def listMin : List ℚ → ℚ
  | [] => 0
  | x :: xs => xs.foldl min x

/-- Maximum of a nonempty numeric list. -/
def listMax : List ℚ → ℚ
  | [] => 0
  | x :: xs => xs.foldl max x

/-- Mean over the non-missing values (pandas `mean()` skips NaN). -/
def pandasMean (nums : List ℚ) : ℚ := nums.sum / (nums.length : ℚ)

/-- Model of pandas `std()` (sample standard deviation, `ddof=1`): the
sample variance is computed exactly; the square root is left out because
it is irrational in general and no claim reads the numeric value of the
`std` field, only whether it is present. -/
def pandasStdSq (nums : List ℚ) : ℚ :=
  if nums.length ≤ 1 then 0
  else
    let m := pandasMean nums
    (nums.map (fun x => (x - m) ^ 2)).sum / ((nums.length : ℚ) - 1)

/-- `df.shape[0]`: the common length of the columns (0 for no columns). -/
def rowCountOf (df : List (String × NpArray)) : Nat :=
  match df with
  | [] => 0
  | (_, a) :: _ => a.vals.length

/-- One entry of the quality map of `evaluate_dataset`: missing ratio
(0.0 for an empty frame), distinct non-missing count, and the four
summary statistics — populated only for numeric dtypes with at least one
non-missing value, explicit nulls otherwise. -/
def qualityEntry (df : List (String × NpArray)) (row_count : Nat) (col : String) : Val :=
  let series := (lookupStr df col).getD ⟨.obj, []⟩
  let missing_ratio : ℚ :=
    if 0 < row_count then
      round6 ((series.vals.countP cellIsNa : ℚ) / (row_count : ℚ))
    else 0
  let nonNa := series.vals.filter (fun c => ¬ cellIsNa c)
  let cardinality : Nat := nonNa.dedup.length
  let stats : List (String × Val) :=
    if isNumericKind series.kind ∧ ¬ nonNa.isEmpty then
      let nums := nonNa.map cellNum
      [("mean", .vFloat (round6 (pandasMean nums))),
       ("std", .vFloat (round6 (pandasStdSq nums))),
       ("min", .vFloat (round6 (listMin nums))),
       ("max", .vFloat (round6 (listMax nums)))]
    else
      [("mean", .vNull), ("std", .vNull), ("min", .vNull), ("max", .vNull)]
  .vDict
    [("missing_ratio", .vFloat missing_ratio),
     ("cardinality", .vInt (cardinality : Int)),
     ("stats", .vDict stats)]

/-- `abs(cur - prior)` against a prior count read from JSON: explicit
null when the prior value is null, an integer when it is an integer, and
a coerced numeric difference otherwise (non-numeric priors raise). -/
def absCountDrift (cur : Nat) (v : Val) : Except String Val :=
  match v with
  | .vNull => .ok .vNull
  | .vInt m => .ok (.vInt |(cur : Int) - m|)
  | v => do
      let p ← pyArithNum v
      return .vFloat |(cur : ℚ) - p|

/-- The four statistic names whose drifts are reported, in report order. -/
def statNames : List String := ["mean", "std", "min", "max"]

/-- The all-absent drift entry: every drift field present with an
explicit null, as written for a column with no usable prior. -/
def allNullDrift : Val :=
  .vDict
    [("mean_drift", .vNull), ("std_drift", .vNull), ("min_drift", .vNull),
     ("max_drift", .vNull), ("missing_ratio_drift", .vNull),
     ("cardinality_drift", .vNull)]

/-- The per-statistic loop of the drift computation: absolute difference
rounded to 6 decimals when both sides are present, explicit null
otherwise. -/
def statDriftList (curStats priorStats : List (String × Val)) :
    List String → Except String (List (String × Val))
  | [] => .ok []
  | stat :: rest => do
      let cur_val := (lookupStr curStats stat).getD .vNull
      let prior_val := (lookupStr priorStats stat).getD .vNull
      let dv ←
        match cur_val, prior_val with
        | .vNull, _ => pure Val.vNull
        | _, .vNull => pure Val.vNull
        | cv, pv => do
            let c ← pyArithNum cv
            let p ← pyArithNum pv
            pure (Val.vFloat (round6 |c - p|))
      let restL ← statDriftList curStats priorStats rest
      return (stat ++ "_drift", dv) :: restL

/-- One column's drift entry: the populated branch when a prior profile
is present and records the column, the all-null branch otherwise. -/
def driftEntry (quality : List (String × Val)) (priorPresent : Bool)
    (priorCols : List (String × Val)) (col : String) : Except String Val := do
  if priorPresent ∧ containsStr priorCols col then
    let curQ ←
      match lookupStr quality col with
      | some (.vDict q) => pure q
      | _ => throw "KeyError: quality entry"
    let curStats ←
      match lookupStr curQ "stats" with
      | some (.vDict st) => pure st
      | _ => throw "KeyError: 'stats'"
    let priorColEntry ←
      match lookupStr priorCols col with
      | some (.vDict pc) => pure pc
      | _ => throw "TypeError: prior column entry is not a mapping"
    let priorStats ←
      match lookupStr priorColEntry "stats" with
      | some (.vDict ps) => pure ps
      | some _ => throw "AttributeError: prior stats entry is not a mapping"
      | Option.none => throw "KeyError: 'stats'"
    let statDrifts ← statDriftList curStats priorStats statNames
    let cur_miss := (lookupStr curQ "missing_ratio").getD .vNull
    let missDrift ←
      match (lookupStr priorColEntry "missing_ratio").getD .vNull with
      | .vNull => pure Val.vNull
      | pv => do
          let c ← pyArithNum cur_miss
          let p ← pyArithNum pv
          pure (Val.vFloat (round6 |c - p|))
    let curCard : Nat :=
      match lookupStr curQ "cardinality" with
      | some (.vInt n) => n.toNat
      | _ => 0
    let cardDrift ← absCountDrift curCard ((lookupStr priorColEntry "cardinality").getD .vNull)
    return .vDict (statDrifts ++
      [("missing_ratio_drift", missDrift), ("cardinality_drift", cardDrift)])
  else
    return allNullDrift

/-- The column loop building the drift map, in sorted column order. -/
def driftColumns (quality : List (String × Val)) (priorPresent : Bool)
    (priorCols : List (String × Val)) :
    List String → Except String (List (String × Val))
  | [] => .ok []
  | col :: rest => do
      let d ← driftEntry quality priorPresent priorCols col
      let restL ← driftColumns quality priorPresent priorCols rest
      return (col, d) :: restL

/-- `evaluate_dataset` from `engine/evaluate.py`, over the loaded data
frame and the optionally present parsed `prior_profile.json` (locating
and reading those files, and writing `evaluation_report.json`, are I/O;
the returned value is the report document that gets written).  Quality is
always computed per column in sorted order; drift fields are populated
only from a present prior profile, with explicit nulls everywhere a side
is absent. -/
def evaluate_dataset (df : List (String × NpArray)) (prior_profile : Option Val) :
    Except String Val := do
  let row_count := rowCountOf df
  let column_count := df.length
  let sortedCols := sortStrings (df.map Prod.fst)
  let quality := sortedCols.map (fun c => (c, qualityEntry df row_count c))
  let (priorPresent, priorCols, dataset_drift) ←
    match prior_profile with
    | Option.none =>
        pure (false, ([] : List (String × Val)),
          Val.vDict [("row_count_drift", Val.vNull), ("column_count_drift", Val.vNull)])
    | some p => do
        let pd ←
          match p with
          | .vDict pd => pure pd
          | _ => throw "AttributeError: prior profile is not a mapping"
        let priorCols ←
          match lookupStr pd "columns" with
          | Option.none => pure ([] : List (String × Val))
          | some (.vDict pc) => pure pc
          | some _ => throw "TypeError: prior 'columns' must be a mapping"
        let rcd ← absCountDrift row_count ((lookupStr pd "row_count").getD .vNull)
        let ccd ← absCountDrift column_count ((lookupStr pd "column_count").getD .vNull)
        pure (true, priorCols,
          Val.vDict [("row_count_drift", rcd), ("column_count_drift", ccd)])
  let drift ← driftColumns quality priorPresent priorCols sortedCols
  return .vDict
    [("row_count", .vInt (row_count : Int)),
     ("column_count", .vInt (column_count : Int)),
     ("dataset_drift", dataset_drift),
     ("quality", .vDict quality),
     ("drift", .vDict drift)]

theorem lookupStr_dictSet_self {α : Type} (l : List (String × α)) (k : String) (v : α) :
    lookupStr (dictSet l k v) k = some v := by
  induction l with
  | nil => simp [dictSet, lookupStr]
  | cons kv rest ih =>
      obtain ⟨k2, v2⟩ := kv
      by_cases h : k2 = k <;> simp [dictSet, lookupStr, h, ih]

theorem lookupStr_dictSet_ne {α : Type} (l : List (String × α)) (k k2 : String) (v : α)
    (h : k2 ≠ k) : lookupStr (dictSet l k v) k2 = lookupStr l k2 := by
  have h2 : ¬ (k = k2) := fun hh => h hh.symm
  induction l with
  | nil => simp [dictSet, lookupStr, h2]
  | cons kv rest ih =>
      obtain ⟨k3, v3⟩ := kv
      by_cases h3 : k3 = k
      · subst h3
        simp [dictSet, lookupStr, h2]
      · simp only [dictSet, if_neg h3, lookupStr]
        by_cases h4 : k3 = k2
        · simp [h4]
        · simp [h4, ih]

theorem lookupStr_map_self {α : Type} (f : String → α) :
    ∀ (l : List String) (c : String), c ∈ l →
      lookupStr (l.map fun x => (x, f x)) c = some (f c) := by
  intro l
  induction l with
  | nil => intro c hc; cases hc
  | cons x rest ih =>
      intro c hc
      by_cases h : x = c
      · simp [lookupStr, h]
      · have : c ∈ rest := by
          cases hc with
          | head => exact absurd rfl h
          | tail _ h2 => exact h2
        simp [lookupStr, h, ih c this]

theorem mem_insertSorted (x y : String) (l : List String) :
    y ∈ insertSorted x l ↔ y = x ∨ y ∈ l := by
  induction l with
  | nil => simp [insertSorted]
  | cons z rest ih =>
      by_cases h : strLe x z = true
      · simp [insertSorted, h]
      · simp [insertSorted, h, ih]
        tauto

theorem mem_sortStrings (l : List String) (x : String) :
    x ∈ sortStrings l ↔ x ∈ l := by
  induction l with
  | nil => simp [sortStrings]
  | cons z rest ih =>
      simp only [sortStrings, List.foldr] at ih ⊢
      rw [mem_insertSorted, ih, List.mem_cons]

theorem getD_cons_eraseIdx_perm {l : List Nat} {i : Nat} (h : i < l.length) :
    (l.getD i 0 :: l.eraseIdx i).Perm l := by
  rw [l.getD_eq_getElem 0 h]
  exact ((List.perm_cons_erase (l.getElem_mem h)).trans
    ((List.erase_getElem h).cons _)).symm

theorem shuffleFuel_perm :
    ∀ (fuel s : Nat) (pool : List Nat), pool.length ≤ fuel →
      (shuffleFuel fuel s pool).Perm pool := by
  intro fuel
  induction fuel with
  | zero =>
      intro s pool h
      have : pool = [] := List.eq_nil_of_length_eq_zero (Nat.le_zero.1 h)
      simp [this, shuffleFuel]
  | succ n ih =>
      intro s pool h
      by_cases hp : pool.length = 0
      · have : pool = [] := List.eq_nil_of_length_eq_zero hp
        simp [this, shuffleFuel]
      · have hpos : 0 < pool.length := Nat.pos_of_ne_zero hp
        have hi : rngNext s % pool.length < pool.length := Nat.mod_lt _ hpos
        have hlen : (pool.eraseIdx (rngNext s % pool.length)).length ≤ n := by
          have h1 := List.length_eraseIdx_add_one hi
          omega
        simp only [shuffleFuel, hp, if_false]
        exact ((ih (rngNext s) _ hlen).cons _).trans (getD_cons_eraseIdx_perm hi)

theorem shuffle_perm (s : Nat) (pool : List Nat) : (shuffle s pool).Perm pool :=
  shuffleFuel_perm _ _ _ le_rfl

theorem shuffle_range_nodup (s n : Nat) : (shuffle s (List.range n)).Nodup :=
  ((shuffle_perm s (List.range n)).nodup_iff).2 (List.nodup_range n)

theorem shuffle_range_length (s n : Nat) : (shuffle s (List.range n)).length = n := by
  rw [(shuffle_perm s (List.range n)).length_eq, List.length_range]

theorem mem_shuffle_range {s n j : Nat} (h : j ∈ shuffle s (List.range n)) : j < n := by
  have := (shuffle_perm s (List.range n)).mem_iff.1 h
  exact List.mem_range.1 this

theorem pyRound_mem (q : ℚ) : pyRound q = ⌊q⌋ ∨ pyRound q = ⌊q⌋ + 1 := by
  unfold pyRound
  split_ifs <;> simp

theorem pyRound_nonneg {q : ℚ} (h : 0 ≤ q) : 0 ≤ pyRound q := by
  have hf : 0 ≤ ⌊q⌋ := Int.floor_nonneg.2 h
  rcases pyRound_mem q with h2 | h2 <;> omega

theorem pyRound_le_int {q : ℚ} {n : Int} (h : q ≤ (n : ℚ)) : pyRound q ≤ n := by
  have hf : ⌊q⌋ ≤ n := by
    have h2 : ⌊q⌋ ≤ ⌊(n : ℚ)⌋ := Int.floor_le_floor h
    simpa using h2
  have hfq : (⌊q⌋ : ℚ) ≤ q := Int.floor_le q
  unfold pyRound
  split_ifs with h1 h2 h3
  · exact hf
  · have hlt : ⌊q⌋ < n := by
      by_contra hc
      push_neg at hc
      have hc2 : (n : ℚ) ≤ (⌊q⌋ : ℚ) := by exact_mod_cast hc
      linarith
    omega
  · exact hf
  · have he : q - (⌊q⌋ : ℚ) = 1/2 := le_antisymm (not_lt.1 h2) (not_lt.1 h1)
    have hlt : ⌊q⌋ < n := by
      by_contra hc
      push_neg at hc
      have hc2 : (n : ℚ) ≤ (⌊q⌋ : ℚ) := by exact_mod_cast hc
      linarith
    omega

/-- A small but fully populated configuration mapping used to
instantiate the universally quantified claims at a concrete input. -/
def sampleConfigs : List (String × Val) :=
  [("dataset.yaml", .vDict [("row_count", .vInt 20)]),
   ("schema.yaml", .vDict [("columns", .vDict
      [("amount", .vNull), ("transaction_id", .vNull), ("is_fraud", .vNull)])]),
   ("evolution.yaml", .vDict [("fraud_rate", .vFloat (1/10))])]

/-- C1: for every fixed dataset name, version string, and configuration
mapping, two independent invocations of `generate_dataset` produce
identical output tables — the same columns in the same order, the same
values in every cell, and the same positions of injected missing values
and fraud labels.  The output is a pure function of the configuration
and of the dataset/version basenames feeding the seed derivation; no
wall-clock, process, or iteration-order input exists in the model
because none is read by the source. -/
theorem generate_dataset_deterministic (d1 r1 d2 r2 : String)
    (configs : List (String × Val))
    (hd : basenameNormpath d1 = basenameNormpath d2)
    (hr : basenameNormpath r1 = basenameNormpath r2) :
    generate_dataset d1 configs r1 = generate_dataset d2 configs r2 := by
  simp only [generate_dataset, _derive_seed, hd, hr]

/-- Witness for C1 at a concrete dataset name, version, and
configuration: the two invocations live in distinct directory trees but
share the dataset name `finance_transactions` and version `v1`. -/
theorem generate_dataset_deterministic_witness :
    basenameNormpath "datasets/finance_transactions" =
      basenameNormpath "mirror/finance_transactions" ∧
    basenameNormpath "runs/finance_transactions/v1" =
      basenameNormpath "elsewhere/v1" ∧
    generate_dataset "datasets/finance_transactions" sampleConfigs
        "runs/finance_transactions/v1" =
      generate_dataset "mirror/finance_transactions" sampleConfigs
        "elsewhere/v1" :=
  ⟨by decide, by decide,
    generate_dataset_deterministic _ _ _ _ sampleConfigs (by decide) (by decide)⟩

theorem persist_ok_shape (dd rd now : String) (cfg : Val) (fs fs' : RunDirFS)
    (h : persist_artifacts dd cfg rd now fs = .ok fs') :
    ∃ df, fs' = dictSet fs "final_metadata.json" (.json (mkManifest dd rd now df)) := by
  unfold persist_artifacts at h
  simp only [bind, Except.bind, pure, Except.pure] at h
  split at h
  next hc => simp [throw, throwThe, MonadExceptOf.throw] at h
  next hc =>
    split at h
    next h2 => simp [throw, throwThe, MonadExceptOf.throw] at h
    next h2 =>
      split at h
      next h3 => simp [throw, throwThe, MonadExceptOf.throw] at h
      next h3 =>
        split at h
        next h4 => cases h
        next a h4 =>
          split at h
          next v h5 =>
            split at h
            next h6 => simp [throw, throwThe, MonadExceptOf.throw] at h
            next h6 =>
              simp only [Except.ok.injEq] at h
              exact ⟨_, h.symm⟩
          next h5 => simp [throw, throwThe, MonadExceptOf.throw] at h

/-- C2: a second call to the Finalizer on a run directory already
finalized by a first successful call fails — with the already-finalized
error, raised by the guard before anything is written, so the failing
call leaves the directory untouched (an `Except.error` result carries no
new state) — and the manifest present after the first call is the one
composed by the first call's inputs. -/
theorem persist_artifacts_one_shot (dd rd now dd' rd' now' : String)
    (cfg cfg' : Val) (fs fs' : RunDirFS)
    (h : persist_artifacts dd cfg rd now fs = .ok fs') :
    persist_artifacts dd' cfg' rd' now' fs' =
      .error ("Run is already finalized: " ++ rd' ++ "/final_metadata.json") ∧
    ∃ df, lookupStr fs' "final_metadata.json" =
      some (.json (mkManifest dd rd now df)) := by
  obtain ⟨df, hfs⟩ := persist_ok_shape dd rd now cfg fs fs' h
  have hlk : lookupStr fs' "final_metadata.json" =
      some (.json (mkManifest dd rd now df)) := by
    rw [hfs]
    exact lookupStr_dictSet_self fs "final_metadata.json" _
  refine ⟨?_, df, hlk⟩
  have hc : containsStr fs' "final_metadata.json" = true := by
    simp [containsStr, hlk]
  unfold persist_artifacts
  simp [hc, bind, Except.bind, throw, throwThe, MonadExceptOf.throw]

/-- A populated run directory on which finalization succeeds. -/
def sampleRunDir : RunDirFS :=
  [("data.parquet", .blob),
   ("configs_snapshot.json", .json (.vDict [("row_count", .vInt 5)])),
   ("run_metadata.json", .json (.vDict [])),
   ("validation_report.json", .json (.vDict [])),
   ("evaluation_report.json", .json (.vDict []))]

/-- The same run directory after its one successful finalization. -/
def sampleFinalizedDir : RunDirFS :=
  dictSet sampleRunDir "final_metadata.json"
    (.json (mkManifest "datasets/ds" "runs/ds/v1" "2025-01-01T00:00:00+00:00"
      "data.parquet"))

/-- Witness for C2: a concrete first finalization succeeds, and the
replay on its resulting directory fails with the guard error while the
first manifest is still the one on disk. -/
theorem persist_artifacts_one_shot_witness :
    persist_artifacts "datasets/ds" (.vDict [("row_count", .vInt 5)]) "runs/ds/v1"
        "2025-01-01T00:00:00+00:00" sampleRunDir = .ok sampleFinalizedDir ∧
    (persist_artifacts "datasets/ds" (.vDict [("row_count", .vInt 5)]) "runs/ds/v1"
        "2025-01-02T00:00:00+00:00" sampleFinalizedDir =
      .error ("Run is already finalized: " ++ "runs/ds/v1" ++ "/final_metadata.json") ∧
     ∃ df, lookupStr sampleFinalizedDir "final_metadata.json" =
       some (.json (mkManifest "datasets/ds" "runs/ds/v1"
         "2025-01-01T00:00:00+00:00" df))) :=
  ⟨by rfl,
   persist_artifacts_one_shot "datasets/ds" "runs/ds/v1" "2025-01-01T00:00:00+00:00"
     "datasets/ds" "runs/ds/v1" "2025-01-02T00:00:00+00:00"
     (.vDict [("row_count", .vInt 5)]) (.vDict [("row_count", .vInt 5)])
     sampleRunDir sampleFinalizedDir (by rfl)⟩

/-- The three-field core of a finalized-run manifest, as read back by the
Registry Updater. -/
def mkFinalMeta (dataset run_dir finalized_at : String) : Val :=
  .vDict
    [("dataset", .vStr dataset), ("run_dir", .vStr run_dir),
     ("finalized_at_utc", .vStr finalized_at)]

/-- The registry document produced by a successful registration: the
version record appended to the dataset's list and `latest_version`
repointed. -/
def regAfter (r ds entryD : List (String × Val)) (vs : List Val)
    (D rdp fa : String) : Val :=
  .vDict (dictSet r "datasets" (.vDict (dictSet ds D (.vDict
    (dictSet (dictSet entryD "versions"
        (.vList (vs ++ [mkVersionRecord (basenameNormpath rdp) rdp fa])))
      "latest_version" (.vStr (basenameNormpath rdp)))))))

/-- The version list recorded for dataset `D` in a registry document. -/
def regVersions (reg : Val) (D : String) : Option (List Val) :=
  match reg with
  | .vDict r =>
      match lookupStr r "datasets" with
      | some (.vDict ds) =>
          match lookupStr ds D with
          | some (.vDict e) =>
              match lookupStr e "versions" with
              | some (.vList vs) => some vs
              | _ => Option.none
          | _ => Option.none
      | _ => Option.none
  | _ => Option.none

/-- The `latest_version` pointer recorded for dataset `D`. -/
def regLatest (reg : Val) (D : String) : Option Val :=
  match reg with
  | .vDict r =>
      match lookupStr r "datasets" with
      | some (.vDict ds) =>
          match lookupStr ds D with
          | some (.vDict e) => lookupStr e "latest_version"
          | _ => Option.none
      | _ => Option.none
  | _ => Option.none

theorem pyTruthy_vStr {s : String} (h : s ≠ "") : pyTruthy (.vStr s) = true := by
  simp [pyTruthy]
  intro h2
  exact h (String.ext (by simpa [String.length] using List.eq_nil_of_length_eq_zero h2))

theorem update_registry_forward (D rdp fa : String) (r ds entryD : List (String × Val))
    (vs : List Val)
    (hD : D ≠ "") (hrdp : rdp ≠ "") (hfa : fa ≠ "")
    (hv : basenameNormpath rdp ≠ "")
    (hds : lookupStr r "datasets" = some (.vDict ds))
    (hentry : lookupStr ds D = some (.vDict entryD))
    (hversions : lookupStr entryD "versions" = some (.vList vs))
    (hdup : versionPresent (basenameNormpath rdp) vs = .ok false) :
    update_registry_from_final_metadata (mkFinalMeta D rdp fa) (.vDict r) =
      .ok (regAfter r ds entryD vs D rdp fa) := by
  unfold update_registry_from_final_metadata
  simp only [mkFinalMeta, lookupStr, bind, Except.bind, pure, Except.pure,
    throw, throwThe, MonadExceptOf.throw, Option.getD, reduceIte,
    pyTruthy_vStr hD, pyTruthy_vStr hrdp, pyTruthy_vStr hfa,
    hds, hentry, hversions, hdup, hv, regAfter]
  simp [pyTruthy_vStr hD, pyTruthy_vStr hrdp, pyTruthy_vStr hfa,
    hds, hentry, hversions, hdup, hv, regAfter]

theorem versionPresent_append_true (V rdp fa : String) :
    ∀ vs : List Val, versionPresent V vs = .ok false →
      versionPresent V (vs ++ [mkVersionRecord V rdp fa]) = .ok true := by
  intro vs
  induction vs with
  | nil =>
      intro _
      simp [versionPresent, mkVersionRecord, lookupStr]
  | cons v rest ih =>
      intro h
      match v with
      | .vNull | .vBool _ | .vInt _ | .vFloat _ | .vStr _ | .vList _ => cases h
      | .vDict vd =>
          simp only [versionPresent] at h
          split at h
          next hc => cases h
          next hc =>
            rw [List.cons_append]
            simp only [versionPresent]
            rw [if_neg hc]
            exact ih h

theorem lookupStr_versions_after (entryD : List (String × Val)) (nv lv : Val) :
    lookupStr (dictSet (dictSet entryD "versions" nv) "latest_version" lv)
      "versions" = some nv := by
  rw [lookupStr_dictSet_ne _ _ _ _ (by decide)]
  exact lookupStr_dictSet_self _ _ _

theorem regVersions_regAfter (D rdp fa : String)
    (r ds entryD : List (String × Val)) (vs : List Val) :
    regVersions (regAfter r ds entryD vs D rdp fa) D =
      some (vs ++ [mkVersionRecord (basenameNormpath rdp) rdp fa]) := by
  simp only [regVersions, regAfter, lookupStr_dictSet_self, lookupStr_versions_after]

/-- C3: registering the same version twice for the same dataset succeeds
the first time, producing exactly the old version list with the one new
record appended (length increased by exactly one), and the second
attempt is rejected with the duplicate-version error — which, raised
before the write, leaves the registry document of the first attempt
unchanged. -/
theorem registry_duplicate_version_rejected (D rdp fa : String)
    (r ds entryD : List (String × Val)) (vs : List Val)
    (hD : D ≠ "") (hrdp : rdp ≠ "") (hfa : fa ≠ "")
    (hv : basenameNormpath rdp ≠ "")
    (hds : lookupStr r "datasets" = some (.vDict ds))
    (hentry : lookupStr ds D = some (.vDict entryD))
    (hversions : lookupStr entryD "versions" = some (.vList vs))
    (hdup : versionPresent (basenameNormpath rdp) vs = .ok false) :
    update_registry_from_final_metadata (mkFinalMeta D rdp fa) (.vDict r) =
      .ok (regAfter r ds entryD vs D rdp fa) ∧
    update_registry_from_final_metadata (mkFinalMeta D rdp fa)
        (regAfter r ds entryD vs D rdp fa) =
      .error ("Version '" ++ basenameNormpath rdp ++
        "' already present in registry for dataset '" ++ D ++ "'") ∧
    regVersions (regAfter r ds entryD vs D rdp fa) D =
      some (vs ++ [mkVersionRecord (basenameNormpath rdp) rdp fa]) ∧
    (regVersions (regAfter r ds entryD vs D rdp fa) D).map List.length =
      some (vs.length + 1) := by
  refine ⟨update_registry_forward D rdp fa r ds entryD vs hD hrdp hfa hv hds hentry
    hversions hdup, ?_, regVersions_regAfter D rdp fa r ds entryD vs, ?_⟩
  · have hdup2 := versionPresent_append_true (basenameNormpath rdp) rdp fa vs hdup
    unfold update_registry_from_final_metadata
    simp only [mkFinalMeta, regAfter, lookupStr, bind, Except.bind, pure, Except.pure,
      throw, throwThe, MonadExceptOf.throw, Option.getD, reduceIte,
      pyTruthy_vStr hD, pyTruthy_vStr hrdp, pyTruthy_vStr hfa,
      lookupStr_dictSet_self, lookupStr_versions_after, hv, hdup2]
    simp [pyTruthy_vStr hD, pyTruthy_vStr hrdp, pyTruthy_vStr hfa, hv,
      lookupStr_dictSet_self, lookupStr_versions_after, hdup2]
  · rw [regVersions_regAfter]
    simp

theorem regLatest_regAfter (D rdp fa : String)
    (r ds entryD : List (String × Val)) (vs : List Val) :
    regLatest (regAfter r ds entryD vs D rdp fa) D =
      some (.vStr (basenameNormpath rdp)) := by
  simp only [regLatest, regAfter, lookupStr_dictSet_self]

/-- C10: after every successful registration the dataset's
`latest_version` pointer equals the version just appended — with no
hypothesis comparing it to the previously recorded latest version, so
`latest` means last-registered, not maximal, even when the new version
string sorts lexicographically before the old pointer. -/
theorem registry_latest_is_last_registered (D rdp fa : String)
    (r ds entryD : List (String × Val)) (vs : List Val)
    (hD : D ≠ "") (hrdp : rdp ≠ "") (hfa : fa ≠ "")
    (hv : basenameNormpath rdp ≠ "")
    (hds : lookupStr r "datasets" = some (.vDict ds))
    (hentry : lookupStr ds D = some (.vDict entryD))
    (hversions : lookupStr entryD "versions" = some (.vList vs))
    (hdup : versionPresent (basenameNormpath rdp) vs = .ok false) :
    update_registry_from_final_metadata (mkFinalMeta D rdp fa) (.vDict r) =
      .ok (regAfter r ds entryD vs D rdp fa) ∧
    regLatest (regAfter r ds entryD vs D rdp fa) D =
      some (.vStr (basenameNormpath rdp)) :=
  ⟨update_registry_forward D rdp fa r ds entryD vs hD hrdp hfa hv hds hentry
      hversions hdup,
    regLatest_regAfter D rdp fa r ds entryD vs⟩

/-- A registry already holding one recorded version,
`2025-01-02T00-00-00Z`, which is also the current `latest_version`. -/
def sampleVersionRec : Val :=
  mkVersionRecord "2025-01-02T00-00-00Z" "runs/ds/2025-01-02T00-00-00Z"
    "2025-01-02T00:00:05+00:00"

def sampleEntry : List (String × Val) :=
  [("versions", .vList [sampleVersionRec]),
   ("latest_version", .vStr "2025-01-02T00-00-00Z")]

def sampleDatasets : List (String × Val) := [("ds", .vDict sampleEntry)]

def sampleRegistry : List (String × Val) := [("datasets", .vDict sampleDatasets)]

/-- Witness for C3 at a concrete registry: registering version `v9` for
dataset `ds` succeeds once, the replay fails with the duplicate error,
and the version list afterwards is the old list plus exactly one
record. -/
theorem registry_duplicate_version_rejected_witness :
    update_registry_from_final_metadata
        (mkFinalMeta "ds" "runs/ds/v9" "2025-01-03T00:00:00+00:00")
        (.vDict sampleRegistry) =
      .ok (regAfter sampleRegistry sampleDatasets sampleEntry [sampleVersionRec]
        "ds" "runs/ds/v9" "2025-01-03T00:00:00+00:00") ∧
    update_registry_from_final_metadata
        (mkFinalMeta "ds" "runs/ds/v9" "2025-01-03T00:00:00+00:00")
        (regAfter sampleRegistry sampleDatasets sampleEntry [sampleVersionRec]
          "ds" "runs/ds/v9" "2025-01-03T00:00:00+00:00") =
      .error ("Version '" ++ basenameNormpath "runs/ds/v9" ++
        "' already present in registry for dataset '" ++ "ds" ++ "'") ∧
    regVersions (regAfter sampleRegistry sampleDatasets sampleEntry
        [sampleVersionRec] "ds" "runs/ds/v9" "2025-01-03T00:00:00+00:00") "ds" =
      some ([sampleVersionRec] ++
        [mkVersionRecord (basenameNormpath "runs/ds/v9") "runs/ds/v9"
          "2025-01-03T00:00:00+00:00"]) ∧
    (regVersions (regAfter sampleRegistry sampleDatasets sampleEntry
        [sampleVersionRec] "ds" "runs/ds/v9" "2025-01-03T00:00:00+00:00") "ds").map
        List.length =
      some ([sampleVersionRec].length + 1) :=
  registry_duplicate_version_rejected "ds" "runs/ds/v9" "2025-01-03T00:00:00+00:00"
    sampleRegistry sampleDatasets sampleEntry [sampleVersionRec]
    (by decide) (by decide) (by decide) (by decide) rfl rfl rfl rfl

/-- Witness for C10: the newly registered version
`2025-01-01T00-00-00Z` sorts lexicographically (hence chronologically)
before the previously recorded latest `2025-01-02T00-00-00Z`, yet
`latest_version` afterwards points at the new version. -/
theorem registry_latest_is_last_registered_witness :
    "2025-01-01T00-00-00Z".toList < "2025-01-02T00-00-00Z".toList ∧
    regLatest (.vDict sampleRegistry) "ds" =
      some (.vStr "2025-01-02T00-00-00Z") ∧
    (update_registry_from_final_metadata
        (mkFinalMeta "ds" "runs/ds/2025-01-01T00-00-00Z"
          "2025-01-03T00:00:00+00:00") (.vDict sampleRegistry) =
      .ok (regAfter sampleRegistry sampleDatasets sampleEntry [sampleVersionRec]
        "ds" "runs/ds/2025-01-01T00-00-00Z" "2025-01-03T00:00:00+00:00") ∧
     regLatest (regAfter sampleRegistry sampleDatasets sampleEntry
        [sampleVersionRec] "ds" "runs/ds/2025-01-01T00-00-00Z"
        "2025-01-03T00:00:00+00:00") "ds" =
      some (.vStr (basenameNormpath "runs/ds/2025-01-01T00-00-00Z"))) :=
  ⟨by decide, rfl,
    registry_latest_is_last_registered "ds" "runs/ds/2025-01-01T00-00-00Z"
      "2025-01-03T00:00:00+00:00" sampleRegistry sampleDatasets sampleEntry
      [sampleVersionRec] (by decide) (by decide) (by decide) (by decide)
      rfl rfl rfl rfl⟩

/-- Counterexample to C6 as stated: the non-integer row-count value 4.7
is not rejected — Python `int(4.7)` silently truncates, so the Resolver
accepts the configuration and returns 4. -/
theorem row_count_counterexample :
    _extract_row_count (.vDict [("row_count", .vFloat (47/10))]) = .ok 4 := by
  norm_num [_extract_row_count, resolveRowCountAlias, lookupStr, pyToInt, ratTrunc]

theorem row_count_match_tail (v : Val) (m : Int) :
    (match pyToInt v with
      | .error _ => (Except.error "row_count must be an integer" : Except String Int)
      | .ok rc_int =>
          if rc_int ≤ 0 then Except.error "row_count must be > 0"
          else Except.ok rc_int) = Except.ok m ↔
      (pyToInt v = .ok m ∧ 0 < m) := by
  cases hi : pyToInt v with
  | error e => simp
  | ok rc =>
      by_cases hrc : rc ≤ 0
      · simp [hrc]
        omega
      · simp [hrc]
        omega

/-- C6 (amended): row-count extraction resolves the `row_count` /
`rows` aliases and accepts exactly the values whose Python `int(...)`
coercion succeeds with a positive result — so positive integers, but
also floats via silent truncation toward zero, integer-literal strings,
and booleans; a missing value is never defaulted (both aliases
absent or null make the coercion fail) and everything else is rejected
with a configuration error. -/
theorem row_count_amended (d : List (String × Val)) (m : Int) :
    _extract_row_count (.vDict d) = .ok m ↔
      (pyToInt (resolveRowCountAlias d) = .ok m ∧ 0 < m) := by
  unfold _extract_row_count
  cases hv : resolveRowCountAlias d with
  | vNull => simp only [hv]; simp [pyToInt]
  | vBool b => simp only [hv]; exact row_count_match_tail (Val.vBool b) m
  | vInt n => simp only [hv]; exact row_count_match_tail (Val.vInt n) m
  | vFloat q => simp only [hv]; exact row_count_match_tail (Val.vFloat q) m
  | vStr s => simp only [hv]; exact row_count_match_tail (Val.vStr s) m
  | vList l => simp only [hv]; exact row_count_match_tail (Val.vList l) m
  | vDict dd => simp only [hv]; exact row_count_match_tail (Val.vDict dd) m

/-- Witness for C6 (amended) at the counterexample input: 4.7 coerces
to the positive integer 4 and is accepted as such. -/
theorem row_count_amended_witness :
    pyToInt (resolveRowCountAlias [("row_count", Val.vFloat (47/10))]) = .ok 4 ∧
    (0 : Int) < 4 ∧
    _extract_row_count (.vDict [("row_count", .vFloat (47/10))]) = .ok 4 := by
  have h1 : pyToInt (resolveRowCountAlias [("row_count", Val.vFloat (47/10))]) = .ok 4 := by
    norm_num [resolveRowCountAlias, lookupStr, pyToInt, ratTrunc]
  exact ⟨h1, by norm_num,
    (row_count_amended [("row_count", Val.vFloat (47/10))] 4).mpr ⟨h1, by norm_num⟩⟩

theorem extractFraudRate_spec (d : List (String × Val)) (fr : Option ℚ)
    (h : extractFraudRate d = .ok fr) :
    fr = (match rawFraudRate d with
      | Option.none => Option.none
      | some .vNull => Option.none
      | some v => (pyToFloat v).toOption) ∧
    ∀ q, fr = some q → 0 ≤ q ∧ q ≤ 1 := by
  cases hr : rawFraudRate d with
  | none =>
      simp only [extractFraudRate, hr] at h
      cases h
      exact ⟨by simp [hr], by intro q hq; cases hq⟩
  | some v =>
      cases v with
      | vNull =>
          simp only [extractFraudRate, hr] at h
          cases h
          exact ⟨by simp [hr], by intro q hq; cases hq⟩
      | vBool b =>
          simp only [extractFraudRate, hr] at h
          cases hpf : pyToFloat (Val.vBool b) with
          | error err => simp only [hpf] at h; cases h
          | ok q =>
              simp only [hpf] at h
              split at h
              next hq => cases h
              next hq =>
                cases h
                push_neg at hq
                refine ⟨by simp [hr, hpf, Except.toOption], ?_⟩
                intro q2 hq2
                cases hq2
                exact ⟨hq.1, hq.2⟩
      | vInt n =>
          simp only [extractFraudRate, hr] at h
          cases hpf : pyToFloat (Val.vInt n) with
          | error err => simp only [hpf] at h; cases h
          | ok q =>
              simp only [hpf] at h
              split at h
              next hq => cases h
              next hq =>
                cases h
                push_neg at hq
                refine ⟨by simp [hr, hpf, Except.toOption], ?_⟩
                intro q2 hq2
                cases hq2
                exact ⟨hq.1, hq.2⟩
      | vFloat q0 =>
          simp only [extractFraudRate, hr] at h
          cases hpf : pyToFloat (Val.vFloat q0) with
          | error err => simp only [hpf] at h; cases h
          | ok q =>
              simp only [hpf] at h
              split at h
              next hq => cases h
              next hq =>
                cases h
                push_neg at hq
                refine ⟨by simp [hr, hpf, Except.toOption], ?_⟩
                intro q2 hq2
                cases hq2
                exact ⟨hq.1, hq.2⟩
      | vStr s =>
          simp only [extractFraudRate, hr] at h
          cases hpf : pyToFloat (Val.vStr s) with
          | error err => simp only [hpf] at h; cases h
          | ok q =>
              simp only [hpf] at h
              split at h
              next hq => cases h
              next hq =>
                cases h
                push_neg at hq
                refine ⟨by simp [hr, hpf, Except.toOption], ?_⟩
                intro q2 hq2
                cases hq2
                exact ⟨hq.1, hq.2⟩
      | vList l =>
          simp only [extractFraudRate, hr] at h
          cases hpf : pyToFloat (Val.vList l) with
          | error err => simp only [hpf] at h; cases h
          | ok q =>
              simp only [hpf] at h
              split at h
              next hq => cases h
              next hq =>
                cases h
                push_neg at hq
                refine ⟨by simp [hr, hpf, Except.toOption], ?_⟩
                intro q2 hq2
                cases hq2
                exact ⟨hq.1, hq.2⟩
      | vDict dd =>
          simp only [extractFraudRate, hr] at h
          cases hpf : pyToFloat (Val.vDict dd) with
          | error err => simp only [hpf] at h; cases h
          | ok q =>
              simp only [hpf] at h
              split at h
              next hq => cases h
              next hq =>
                cases h
                push_neg at hq
                refine ⟨by simp [hr, hpf, Except.toOption], ?_⟩
                intro q2 hq2
                cases hq2
                exact ⟨hq.1, hq.2⟩

/-- The rate recorded in the first `weekly_changes` entry, when that
entry is a mapping carrying one. -/
def firstWeekRate (first : Val) : Option Val :=
  match first with
  | .vDict fw => lookupStr fw "fraud_rate"
  | _ => Option.none

theorem rawFraudRate_weekly (d : List (String × Val)) (first : Val) (rest : List Val)
    (hwc : lookupStr d "weekly_changes" = some (.vList (first :: rest))) :
    rawFraudRate d = firstWeekRate first := by
  unfold rawFraudRate firstWeekRate
  simp only [hwc]

/-- Counterexample to C7 as stated: `weekly_changes` is present as a
nonempty list whose first entry carries no fraud rate, and a top-level
`fraud_rate` of 0.5 is present under the next convention — yet the
resolved rate is `None`, not 0.5: the first convention whose structural
guard matches wins even when it yields no value, so a later convention's
value is not used. -/
theorem evolution_first_match_counterexample :
    lookupStr [("weekly_changes", Val.vList [Val.vDict []]),
        ("fraud_rate", Val.vFloat (1/2))] "fraud_rate" =
      some (.vFloat (1/2)) ∧
    _extract_evolution (.vDict [("weekly_changes", .vList [.vDict []]),
        ("fraud_rate", .vFloat (1/2))]) =
      .ok ⟨Option.none, []⟩ :=
  ⟨rfl, rfl⟩

/-- C7 (amended): the fraud rate is resolved by trying the nesting
conventions in order and committing to the first one whose structural
guard matches — a nonempty `weekly_changes` list commits to its first
entry's `fraud_rate` (possibly absent), only a non-matching guard falls
through to the top-level `fraud_rate` key and then to `fraud.rate` — and
a resolved value must coerce with `float()` and lie in `[0,1]` or a
configuration error is raised. -/
theorem extract_evolution_first_guard_commits (d : List (String × Val))
    (e : Evolution) (h : _extract_evolution (.vDict d) = .ok e) :
    e.fraud_rate = (match rawFraudRate d with
      | Option.none => Option.none
      | some .vNull => Option.none
      | some v => (pyToFloat v).toOption) ∧
    (∀ q, e.fraud_rate = some q → 0 ≤ q ∧ q ≤ 1) ∧
    (∀ first rest, lookupStr d "weekly_changes" = some (.vList (first :: rest)) →
      rawFraudRate d = firstWeekRate first) := by
  unfold _extract_evolution at h
  simp only [bind, Except.bind, pure, Except.pure] at h
  cases hf : extractFraudRate d with
  | error err => simp only [hf] at h; cases h
  | ok fr =>
      simp only [hf] at h
      cases hm : extractMissingness d with
      | error err => simp only [hm] at h; cases h
      | ok ms =>
          simp only [hm] at h
          cases h
          obtain ⟨hfr, hrange⟩ := extractFraudRate_spec d fr hf
          exact ⟨hfr, hrange, fun first rest hwc => rawFraudRate_weekly d first rest hwc⟩

/-- Witness for C7 (amended) at a configuration resolving through the
`fraud: {rate: ...}` convention (no earlier guard matches). -/
theorem extract_evolution_first_guard_commits_witness :
    _extract_evolution (.vDict [("fraud", .vDict [("rate", .vFloat (1/4))])]) =
      .ok ⟨some (1/4), []⟩ ∧
    ((⟨some (1/4), []⟩ : Evolution).fraud_rate =
      (match rawFraudRate [("fraud", Val.vDict [("rate", Val.vFloat (1/4))])] with
        | Option.none => Option.none
        | some .vNull => Option.none
        | some v => (pyToFloat v).toOption) ∧
     (∀ q, (⟨some (1/4), []⟩ : Evolution).fraud_rate = some q → 0 ≤ q ∧ q ≤ 1) ∧
     (∀ first rest,
        lookupStr [("fraud", Val.vDict [("rate", Val.vFloat (1/4))])]
          "weekly_changes" = some (.vList (first :: rest)) →
        rawFraudRate [("fraud", Val.vDict [("rate", Val.vFloat (1/4))])] =
          firstWeekRate first)) := by
  have h : _extract_evolution (.vDict [("fraud", .vDict [("rate", .vFloat (1/4))])]) =
      .ok ⟨some (1/4), []⟩ := by
    simp [_extract_evolution, extractFraudRate, extractMissingness, rawFraudRate,
      containsStr, lookupStr, pyToFloat, bind, Except.bind, pure, Except.pure]
    norm_num
  exact ⟨h, extract_evolution_first_guard_commits _ _ h⟩

/-- Counterexample to C4 as stated: a signed-integer column under a 0.5
missingness ratio is cast to float and receives the NaN sentinel — not,
as claimed for every non-floating-point column, an explicit null in an
object-typed representation.  The guard in the source is
`arr.dtype.kind in ("f", "i", "u")`, not a float-only test. -/
theorem missingness_int_dtype_counterexample :
    _apply_missingness 0 ⟨.i, [Cell.int 5, Cell.int 6]⟩ (1/2) =
      ⟨.f, [Cell.nan, Cell.float 6]⟩ ∧
    (_apply_missingness 0 ⟨.i, [Cell.int 5, Cell.int 6]⟩ (1/2)).kind ≠
      DtypeKind.obj ∧
    Cell.null ∉ (_apply_missingness 0 ⟨.i, [Cell.int 5, Cell.int 6]⟩ (1/2)).vals := by
  have h : _apply_missingness 0 ⟨.i, [Cell.int 5, Cell.int 6]⟩ (1/2) =
      ⟨.f, [Cell.nan, Cell.float 6]⟩ := by
    norm_num [_apply_missingness, pyRound, permutation, shuffle, shuffleFuel,
      rngNext, setCells, cellToFloat, List.mapIdx, List.mapIdx.go]
  refine ⟨h, ?_, ?_⟩ <;> rw [h] <;> decide

/-- C4 (amended): for a column with configured missingness ratio
`r ∈ (0,1]` over `n` rows with `round(r*n) > 0`, the Generator
overwrites exactly `round(r*n)` distinct positions — the first
`round(r*n)` entries of the column's own pseudo-random permutation, a
function of the seed inputs only, so the same positions are marked on
re-run — where float, signed-integer and unsigned-integer dtype columns
are cast to float and receive the NaN sentinel, and every other dtype
receives the explicit null sentinel in an object-typed representation. -/
theorem apply_missingness_amended (rs : Nat) (arr : NpArray) (r : ℚ)
    (hr0 : 0 < r) (hr1 : r ≤ 1)
    (hk : 0 < pyRound (r * (arr.vals.length : ℚ))) :
    ∃ idx : List Nat,
      idx = (permutation rs arr.vals.length).fst.take
        (pyRound (r * (arr.vals.length : ℚ))).toNat ∧
      idx.Nodup ∧
      idx.length = (pyRound (r * (arr.vals.length : ℚ))).toNat ∧
      (∀ j ∈ idx, j < arr.vals.length) ∧
      ((arr.kind = .f ∨ arr.kind = .i ∨ arr.kind = .u) →
        _apply_missingness rs arr r =
          ⟨.f, setCells (arr.vals.map cellToFloat) idx Cell.nan⟩) ∧
      (¬(arr.kind = .f ∨ arr.kind = .i ∨ arr.kind = .u) →
        _apply_missingness rs arr r = ⟨.obj, setCells arr.vals idx Cell.null⟩) := by
  have hkn : pyRound (r * (arr.vals.length : ℚ)) ≤ (arr.vals.length : Int) := by
    apply pyRound_le_int
    calc r * (arr.vals.length : ℚ) ≤ 1 * (arr.vals.length : ℚ) := by
          apply mul_le_mul_of_nonneg_right hr1 (by positivity)
      _ = (arr.vals.length : ℚ) := one_mul _
  refine ⟨(permutation rs arr.vals.length).fst.take
    (pyRound (r * (arr.vals.length : ℚ))).toNat, rfl, ?_, ?_, ?_, ?_, ?_⟩
  · exact (List.take_sublist _ _).nodup
      (by simpa [permutation] using shuffle_range_nodup (rngNext rs) arr.vals.length)
  · rw [List.length_take]
    simp only [permutation, shuffle_range_length]
    omega
  · intro j hj
    have hj2 : j ∈ (permutation rs arr.vals.length).fst := List.mem_of_mem_take hj
    exact mem_shuffle_range (by simpa [permutation] using hj2)
  · intro hkind
    unfold _apply_missingness
    rw [if_neg (not_le.2 hr0), if_neg (not_le.2 hk), if_pos hkind]
  · intro hkind
    unfold _apply_missingness
    rw [if_neg (not_le.2 hr0), if_neg (not_le.2 hk), if_neg hkind]

/-- Witness for C4 (amended) at the counterexample input: ratio 0.5 on
a two-row signed-integer column marks exactly one position. -/
theorem apply_missingness_amended_witness :
    (0 : ℚ) < 1/2 ∧
    0 < pyRound ((1/2 : ℚ) * ((NpArray.mk .i [Cell.int 5, Cell.int 6]).vals.length : ℚ)) ∧
    ∃ idx : List Nat,
      idx = (permutation 0 (NpArray.mk .i [Cell.int 5, Cell.int 6]).vals.length).fst.take
        (pyRound ((1/2 : ℚ) *
          ((NpArray.mk .i [Cell.int 5, Cell.int 6]).vals.length : ℚ))).toNat ∧
      idx.Nodup ∧
      idx.length = (pyRound ((1/2 : ℚ) *
        ((NpArray.mk .i [Cell.int 5, Cell.int 6]).vals.length : ℚ))).toNat ∧
      (∀ j ∈ idx, j < (NpArray.mk .i [Cell.int 5, Cell.int 6]).vals.length) ∧
      (((NpArray.mk .i [Cell.int 5, Cell.int 6]).kind = .f ∨
          (NpArray.mk .i [Cell.int 5, Cell.int 6]).kind = .i ∨
          (NpArray.mk .i [Cell.int 5, Cell.int 6]).kind = .u) →
        _apply_missingness 0 (NpArray.mk .i [Cell.int 5, Cell.int 6]) (1/2) =
          ⟨.f, setCells ((NpArray.mk .i [Cell.int 5, Cell.int 6]).vals.map cellToFloat)
            idx Cell.nan⟩) ∧
      (¬((NpArray.mk .i [Cell.int 5, Cell.int 6]).kind = .f ∨
          (NpArray.mk .i [Cell.int 5, Cell.int 6]).kind = .i ∨
          (NpArray.mk .i [Cell.int 5, Cell.int 6]).kind = .u) →
        _apply_missingness 0 (NpArray.mk .i [Cell.int 5, Cell.int 6]) (1/2) =
          ⟨.obj, setCells (NpArray.mk .i [Cell.int 5, Cell.int 6]).vals idx Cell.null⟩) := by
  have h2 : 0 < pyRound ((1/2 : ℚ) *
      ((NpArray.mk .i [Cell.int 5, Cell.int 6]).vals.length : ℚ)) := by
    norm_num [pyRound]
  exact ⟨by norm_num, h2,
    apply_missingness_amended 0 (NpArray.mk .i [Cell.int 5, Cell.int 6]) (1/2)
      (by norm_num) (by norm_num) h2⟩

theorem generateColumns_ok_lookup (seed : Nat) (evo : Evolution) (rows : Nat) :
    ∀ (cols : List String) (t : List (String × NpArray)) (F : String),
      generateColumns seed evo rows cols = .ok t → F ∈ cols →
      ∃ arr, processColumn seed evo rows F = .ok arr ∧ lookupStr t F = some arr := by
  intro cols
  induction cols with
  | nil => intro t F h hF; cases hF
  | cons c rest ih =>
      intro t F h hF
      unfold generateColumns at h
      simp only [bind, Except.bind, pure, Except.pure] at h
      cases hc : processColumn seed evo rows c with
      | error e => simp only [hc] at h; cases h
      | ok arr =>
          simp only [hc] at h
          cases hrest : generateColumns seed evo rows rest with
          | error e => simp only [hrest] at h; cases h
          | ok t2 =>
              simp only [hrest] at h
              cases h
              by_cases hF2 : c = F
              · subst hF2
                exact ⟨arr, hc, by simp [lookupStr]⟩
              · have hFrest : F ∈ rest := by
                  cases hF with
                  | head => exact absurd rfl hF2
                  | tail _ hx => exact hx
                obtain ⟨arr2, hp2, hl2⟩ := ih t2 F hrest hFrest
                exact ⟨arr2, hp2, by simp [lookupStr, hF2, hl2]⟩

theorem processColumn_fraud_missing (seed : Nat) (evo : Evolution) (rows : Nat)
    (F : String) (hF : pyLower F = "is_fraud" ∨ pyLower F = "fraud")
    (hrate : evo.fraud_rate = Option.none) :
    processColumn seed evo rows F =
      .error "evolution.yaml must define fraud rate when 'is_fraud' column is present" := by
  unfold processColumn _generate_column
  rcases hF with hF | hF
  · simp [hF, hrate, bind, Except.bind, pure, Except.pure,
      show (strEndsWith "is_fraud" "_id") = false from by decide]
  · simp [hF, hrate, bind, Except.bind, pure, Except.pure,
      show (strEndsWith "fraud" "_id") = false from by decide]

theorem processColumn_account_id_error (seed : Nat) (evo : Evolution) (rows : Nat)
    (F : String) (hF : pyLower F = "account_id") (h1 : 0 < rows) (h2 : rows < 10) :
    processColumn seed evo rows F =
      .error "a cannot be empty unless no samples are taken" := by
  have hdiv : rows / 10 = 0 := Nat.div_eq_of_lt h2
  unfold processColumn _generate_column
  simp [hF, hdiv, choice, h1, bind, Except.bind, pure, Except.pure]

theorem processColumn_fraud_ok (seed : Nat) (evo : Evolution) (rows : Nat)
    (F : String) (rate : ℚ)
    (hF : pyLower F = "is_fraud" ∨ pyLower F = "fraud")
    (hrate : evo.fraud_rate = some rate)
    (hmiss : lookupStr evo.missingness F = Option.none) :
    processColumn seed evo rows F = .ok
      ⟨.i, (List.range rows).map (fun j =>
        if ((permutation ((seed + _deterministic_col_hash F) % 2 ^ 32) rows).fst.take
            (pyRound (rate * (rows : ℚ))).toNat).contains j
        then Cell.int 1 else Cell.int 0)⟩ := by
  unfold processColumn _generate_column
  rcases hF with hF | hF
  · simp [hF, hrate, hmiss, bind, Except.bind, pure, Except.pure,
      show (strEndsWith "is_fraud" "_id") = false from by decide]
  · simp [hF, hrate, hmiss, bind, Except.bind, pure, Except.pure,
      show (strEndsWith "fraud" "_id") = false from by decide]

theorem extract_evolution_rate_range (V : Val) (e : Evolution)
    (h : _extract_evolution V = .ok e) :
    ∀ q, e.fraud_rate = some q → 0 ≤ q ∧ q ≤ 1 := by
  cases V with
  | vDict d =>
      unfold _extract_evolution at h
      simp only [bind, Except.bind, pure, Except.pure] at h
      cases hf : extractFraudRate d with
      | error err => simp only [hf] at h; cases h
      | ok fr =>
          simp only [hf] at h
          cases hm : extractMissingness d with
          | error err => simp only [hm] at h; cases h
          | ok ms =>
              simp only [hm] at h
              cases h
              exact (extractFraudRate_spec d fr hf).2
  | vNull => simp only [_extract_evolution] at h; cases h
  | vBool b => simp only [_extract_evolution] at h; cases h
  | vInt n => simp only [_extract_evolution] at h; cases h
  | vFloat q => simp only [_extract_evolution] at h; cases h
  | vStr sx => simp only [_extract_evolution] at h; cases h
  | vList l => simp only [_extract_evolution] at h; cases h

theorem count_ones_map_range (idx : List Nat) (n : Nat) (hnodup : idx.Nodup)
    (hmem : ∀ j ∈ idx, j < n) :
    ((List.range n).map (fun j =>
      if idx.contains j then Cell.int 1 else Cell.int 0)).count (Cell.int 1) =
      idx.length := by
  have hpred : ∀ j, ((if idx.contains j then Cell.int 1 else Cell.int 0) ==
      Cell.int 1) = idx.contains j := by
    intro j
    by_cases hj : j ∈ idx <;> simp [hj]
  have hperm : (List.range n).filter (fun j => idx.contains j) |>.Perm idx := by
    apply List.perm_of_nodup_nodup_toFinset_eq
      (List.Nodup.filter _ (List.nodup_range n)) hnodup
    ext x
    simp only [List.mem_toFinset, List.mem_filter, List.mem_range]
    constructor
    · rintro ⟨_, hx⟩
      simpa using hx
    · intro hx
      exact ⟨hmem x hx, by simpa using hx⟩
  calc ((List.range n).map (fun j =>
        if idx.contains j then Cell.int 1 else Cell.int 0)).count (Cell.int 1)
      = ((List.range n).filter (fun j => idx.contains j)).length := by
        rw [List.count, List.countP_map]
        rw [List.countP_eq_length_filter]
        congr 1
        apply List.filter_congr
        intro j _
        exact hpred j
    _ = idx.length := hperm.length_eq

theorem generate_dataset_unfold (dataset_dir run_dir : String)
    (configs : List (String × Val)) (cols : List String) (rows : Int)
    (evo : Evolution)
    (hreq : _require_configs configs = .ok ())
    (hcols : _extract_columns ((lookupStr configs "schema.yaml").getD .vNull) = .ok cols)
    (hrows : _extract_row_count ((lookupStr configs "dataset.yaml").getD .vNull) = .ok rows)
    (hevo : _extract_evolution ((lookupStr configs "evolution.yaml").getD .vNull) = .ok evo) :
    generate_dataset dataset_dir configs run_dir =
      generateColumns (_derive_seed dataset_dir run_dir) evo rows.toNat cols := by
  unfold generate_dataset
  simp only [hreq, hcols, hrows, hevo, bind, Except.bind, pure, Except.pure]

theorem extract_row_count_pos (V : Val) (m : Int)
    (h : _extract_row_count V = .ok m) : 0 < m := by
  cases V with
  | vDict d =>
      unfold _extract_row_count at h
      cases hv : resolveRowCountAlias d with
      | vNull => simp only [hv] at h; cases h
      | vBool b => simp only [hv] at h; exact ((row_count_match_tail (Val.vBool b) m).1 h).2
      | vInt n => simp only [hv] at h; exact ((row_count_match_tail (Val.vInt n) m).1 h).2
      | vFloat q => simp only [hv] at h; exact ((row_count_match_tail (Val.vFloat q) m).1 h).2
      | vStr sx => simp only [hv] at h; exact ((row_count_match_tail (Val.vStr sx) m).1 h).2
      | vList l => simp only [hv] at h; exact ((row_count_match_tail (Val.vList l) m).1 h).2
      | vDict dd => simp only [hv] at h; exact ((row_count_match_tail (Val.vDict dd) m).1 h).2
  | vNull => simp only [_extract_row_count] at h; cases h
  | vBool b => simp only [_extract_row_count] at h; cases h
  | vInt n => simp only [_extract_row_count] at h; cases h
  | vFloat q => simp only [_extract_row_count] at h; cases h
  | vStr sx => simp only [_extract_row_count] at h; cases h
  | vList l => simp only [_extract_row_count] at h; cases h

/-- C5: when the schema contains a fraud/label column (`is_fraud` or
`fraud`, case-insensitive): with no configured fraud rate,
`generate_dataset` raises before writing any output; with a configured
rate `r`, exactly `round(r * row_count)` distinct row indices — the
first entries of that column's own pseudo-random permutation — carry
the positive label 1 and every other row carries 0 (stated for a fraud
column without a configured missingness ratio, which would overwrite
labels afterwards). -/
theorem fraud_label_assignment (dataset_dir run_dir : String)
    (configs : List (String × Val)) (cols : List String) (rows : Int)
    (evo : Evolution) (F : String)
    (hreq : _require_configs configs = .ok ())
    (hcols : _extract_columns ((lookupStr configs "schema.yaml").getD .vNull) = .ok cols)
    (hrows : _extract_row_count ((lookupStr configs "dataset.yaml").getD .vNull) = .ok rows)
    (hevo : _extract_evolution ((lookupStr configs "evolution.yaml").getD .vNull) = .ok evo)
    (hF : F ∈ cols) (hfr : pyLower F = "is_fraud" ∨ pyLower F = "fraud") :
    (evo.fraud_rate = Option.none →
      ∃ e, generate_dataset dataset_dir configs run_dir = .error e) ∧
    (∀ rate, evo.fraud_rate = some rate →
      lookupStr evo.missingness F = Option.none →
      ∀ t, generate_dataset dataset_dir configs run_dir = .ok t →
      ∃ idx : List Nat,
        idx = (permutation ((_derive_seed dataset_dir run_dir +
            _deterministic_col_hash F) % 2 ^ 32) rows.toNat).fst.take
          (pyRound (rate * (rows.toNat : ℚ))).toNat ∧
        idx.Nodup ∧ (∀ j ∈ idx, j < rows.toNat) ∧
        idx.length = (pyRound (rate * (rows.toNat : ℚ))).toNat ∧
        lookupStr t F = some ⟨.i, (List.range rows.toNat).map (fun j =>
          if idx.contains j then Cell.int 1 else Cell.int 0)⟩ ∧
        ((List.range rows.toNat).map (fun j =>
          if idx.contains j then Cell.int 1 else Cell.int 0)).count (Cell.int 1) =
          (pyRound (rate * (rows.toNat : ℚ))).toNat) := by
  have hunfold := generate_dataset_unfold dataset_dir run_dir configs cols rows evo
    hreq hcols hrows hevo
  constructor
  · intro hnone
    rw [hunfold]
    cases hg : generateColumns (_derive_seed dataset_dir run_dir) evo rows.toNat cols with
    | error e => exact ⟨e, rfl⟩
    | ok t =>
        obtain ⟨arr, hp, _⟩ := generateColumns_ok_lookup _ _ _ cols t F hg hF
        rw [processColumn_fraud_missing _ _ _ _ hfr hnone] at hp
        cases hp
  · intro rate hrate hmiss t ht
    rw [hunfold] at ht
    obtain ⟨arr, hp, hl⟩ := generateColumns_ok_lookup _ _ _ cols t F ht hF
    rw [processColumn_fraud_ok _ _ _ _ rate hfr hrate hmiss] at hp
    obtain ⟨hrange0, hrange1⟩ := extract_evolution_rate_range _ _ hevo rate hrate
    have hkn : pyRound (rate * (rows.toNat : ℚ)) ≤ (rows.toNat : Int) := by
      apply pyRound_le_int
      calc rate * (rows.toNat : ℚ) ≤ 1 * (rows.toNat : ℚ) :=
            mul_le_mul_of_nonneg_right hrange1 (by positivity)
        _ = (rows.toNat : ℚ) := one_mul _
    set k : Nat := (pyRound (rate * (rows.toNat : ℚ))).toNat with hk
    set idx : List Nat := (permutation ((_derive_seed dataset_dir run_dir +
      _deterministic_col_hash F) % 2 ^ 32) rows.toNat).fst.take k with hidx
    have hnodup : idx.Nodup := (List.take_sublist _ _).nodup
      (by simpa [permutation] using shuffle_range_nodup _ rows.toNat)
    have hmem2 : ∀ j ∈ idx, j < rows.toNat := by
      intro j hj
      exact mem_shuffle_range (by simpa [permutation] using List.mem_of_mem_take hj)
    have hlen : idx.length = k := by
      rw [hidx, List.length_take]
      simp only [permutation, shuffle_range_length]
      omega
    refine ⟨idx, rfl, hnodup, hmem2, hlen, ?_, ?_⟩
    · cases hp
      exact hl
    · rw [count_ones_map_range idx rows.toNat hnodup hmem2, hlen]

/-- C9: a schema containing an `account_id` column (case-insensitive)
together with a configured row count below 10 makes `generate_dataset`
fail: the candidate-account pool has size `min(5000, row_count // 10) =
0`, and drawing `row_count ≥ 1` samples from the empty pool raises
instead of producing a data file. -/
theorem account_id_small_rows_fails (dataset_dir run_dir : String)
    (configs : List (String × Val)) (cols : List String) (rows : Int)
    (evo : Evolution) (F : String)
    (hreq : _require_configs configs = .ok ())
    (hcols : _extract_columns ((lookupStr configs "schema.yaml").getD .vNull) = .ok cols)
    (hrows : _extract_row_count ((lookupStr configs "dataset.yaml").getD .vNull) = .ok rows)
    (hevo : _extract_evolution ((lookupStr configs "evolution.yaml").getD .vNull) = .ok evo)
    (hF : F ∈ cols) (hacct : pyLower F = "account_id") (hsmall : rows < 10) :
    min 5000 (rows.toNat / 10) = 0 ∧
    ∃ e, generate_dataset dataset_dir configs run_dir = .error e := by
  have hpos : 0 < rows := extract_row_count_pos _ _ hrows
  refine ⟨by omega, ?_⟩
  rw [generate_dataset_unfold dataset_dir run_dir configs cols rows evo hreq hcols hrows hevo]
  cases hg : generateColumns (_derive_seed dataset_dir run_dir) evo rows.toNat cols with
  | error e => exact ⟨e, rfl⟩
  | ok t =>
      obtain ⟨arr, hp, _⟩ := generateColumns_ok_lookup _ _ _ cols t F hg hF
      rw [processColumn_account_id_error _ _ _ _ hacct (by omega) (by omega)] at hp
      cases hp

/-- Configuration with a fraud column and a 0.2 fraud rate over 10 rows. -/
def fraudConfigs : List (String × Val) :=
  [("dataset.yaml", .vDict [("row_count", .vInt 10)]),
   ("schema.yaml", .vDict [("columns", .vList [.vStr "transaction_id", .vStr "is_fraud"])]),
   ("evolution.yaml", .vDict [("fraud_rate", .vFloat (1/5))])]

/-- Witness for C5 at the concrete configuration `fraudConfigs`. -/
theorem fraud_label_assignment_witness :
    _extract_evolution ((lookupStr fraudConfigs "evolution.yaml").getD .vNull) =
      .ok ⟨some (1/5), []⟩ ∧
    (((⟨some (1/5), []⟩ : Evolution).fraud_rate = Option.none →
      ∃ e, generate_dataset "datasets/tx" fraudConfigs "runs/tx/v1" = .error e) ∧
     (∀ rate, (⟨some (1/5), []⟩ : Evolution).fraud_rate = some rate →
      lookupStr (⟨some (1/5), []⟩ : Evolution).missingness "is_fraud" = Option.none →
      ∀ t, generate_dataset "datasets/tx" fraudConfigs "runs/tx/v1" = .ok t →
      ∃ idx : List Nat,
        idx = (permutation ((_derive_seed "datasets/tx" "runs/tx/v1" +
            _deterministic_col_hash "is_fraud") % 2 ^ 32) (10 : Int).toNat).fst.take
          (pyRound (rate * ((10 : Int).toNat : ℚ))).toNat ∧
        idx.Nodup ∧ (∀ j ∈ idx, j < (10 : Int).toNat) ∧
        idx.length = (pyRound (rate * ((10 : Int).toNat : ℚ))).toNat ∧
        lookupStr t "is_fraud" = some ⟨.i, (List.range (10 : Int).toNat).map (fun j =>
          if idx.contains j then Cell.int 1 else Cell.int 0)⟩ ∧
        ((List.range (10 : Int).toNat).map (fun j =>
          if idx.contains j then Cell.int 1 else Cell.int 0)).count (Cell.int 1) =
          (pyRound (rate * ((10 : Int).toNat : ℚ))).toNat)) := by
  have hevo : _extract_evolution ((lookupStr fraudConfigs "evolution.yaml").getD .vNull) =
      .ok ⟨some (1/5), []⟩ := by
    simp [fraudConfigs, _extract_evolution, extractFraudRate, extractMissingness,
      rawFraudRate, containsStr, lookupStr, pyToFloat, bind, Except.bind, pure, Except.pure]
    norm_num
  exact ⟨hevo,
    fraud_label_assignment "datasets/tx" "runs/tx/v1" fraudConfigs
      ["transaction_id", "is_fraud"] 10 ⟨some (1/5), []⟩ "is_fraud"
      rfl rfl rfl hevo (by decide) (Or.inl (by decide))⟩

/-- Configuration with an `account_id` column and row count 5. -/
def smallAccountConfigs : List (String × Val) :=
  [("dataset.yaml", .vDict [("row_count", .vInt 5)]),
   ("schema.yaml", .vDict [("columns", .vList [.vStr "account_id"])]),
   ("evolution.yaml", .vDict [])]

/-- Witness for C9 at row count 5: the account pool is empty and
generation fails. -/
theorem account_id_small_rows_fails_witness :
    min 5000 ((5 : Int).toNat / 10) = 0 ∧
    ∃ e, generate_dataset "datasets/tx" smallAccountConfigs "runs/tx/v1" = .error e :=
  account_id_small_rows_fails "datasets/tx" "runs/tx/v1" smallAccountConfigs
    ["account_id"] 5 ⟨Option.none, []⟩ "account_id"
    rfl rfl rfl rfl (by decide) (by decide) (by decide)

/-- One top-level field of an evaluation report document. -/
def reportField (rep : Val) (k : String) : Option Val :=
  match rep with
  | .vDict r => lookupStr r k
  | _ => Option.none

/-- The per-column map of a prior profile document (empty when absent). -/
def priorColsDict (p : Val) : List (String × Val) :=
  match p with
  | .vDict pd =>
      match lookupStr pd "columns" with
      | some (.vDict pc) => pc
      | _ => []
  | _ => []

theorem driftColumns_no_prior (q pc : List (String × Val)) :
    ∀ cols : List String,
      driftColumns q false pc cols = .ok (cols.map fun c => (c, allNullDrift)) := by
  intro cols
  induction cols with
  | nil => rfl
  | cons c rest ih =>
      unfold driftColumns driftEntry
      simp [bind, Except.bind, pure, Except.pure, ih]

theorem driftColumns_ok_lookup (q pc : List (String × Val)) (pp : Bool) :
    ∀ (cols : List String) (dl : List (String × Val)) (c : String),
      driftColumns q pp pc cols = .ok dl → c ∈ cols →
      ∃ v, driftEntry q pp pc c = .ok v ∧ lookupStr dl c = some v := by
  intro cols
  induction cols with
  | nil => intro dl c h hc; cases hc
  | cons c0 rest ih =>
      intro dl c h hc
      unfold driftColumns at h
      simp only [bind, Except.bind, pure, Except.pure] at h
      cases hd : driftEntry q pp pc c0 with
      | error e => simp only [hd] at h; cases h
      | ok v =>
          simp only [hd] at h
          cases hrest : driftColumns q pp pc rest with
          | error e => simp only [hrest] at h; cases h
          | ok dl2 =>
              simp only [hrest] at h
              cases h
              by_cases hc0 : c0 = c
              · subst hc0
                exact ⟨v, hd, by simp [lookupStr]⟩
              · have hcrest : c ∈ rest := by
                  cases hc with
                  | head => exact absurd rfl hc0
                  | tail _ hx => exact hx
                obtain ⟨v2, hd2, hl2⟩ := ih dl2 c hrest hcrest
                exact ⟨v2, hd2, by simp [lookupStr, hc0, hl2]⟩

theorem driftEntry_absent (q pc : List (String × Val)) (c : String)
    (hc : containsStr pc c = false) :
    driftEntry q true pc c = .ok allNullDrift := by
  unfold driftEntry
  simp [hc, bind, Except.bind, pure, Except.pure]

theorem qualityEntry_shape (df : List (String × NpArray)) (rc : Nat) (c : String) :
    ∃ mr card st, qualityEntry df rc c = .vDict
      [("missing_ratio", .vFloat mr), ("cardinality", .vInt card),
       ("stats", .vDict st)] ∧
      st.map Prod.fst = ["mean", "std", "min", "max"] := by
  refine ⟨_, _, _, rfl, ?_⟩
  split <;> rfl

/-- C8: with no prior profile, the evaluation report carries every
per-column drift field and both dataset-level drift fields explicitly
present with a null value — not zero and not omitted — while every
per-column quality field (missing ratio, cardinality, and the stats map
with its four keys) is fully populated; and for a present prior profile,
any column absent from its per-column map likewise gets the all-null
drift entry. -/
theorem drift_absent_without_prior :
    (∀ df : List (String × NpArray),
      ∃ quality : List (String × Val),
        evaluate_dataset df Option.none = .ok (.vDict
          [("row_count", .vInt (rowCountOf df : Int)),
           ("column_count", .vInt (df.length : Int)),
           ("dataset_drift", .vDict
              [("row_count_drift", .vNull), ("column_count_drift", .vNull)]),
           ("quality", .vDict quality),
           ("drift", .vDict ((sortStrings (df.map Prod.fst)).map
              fun c => (c, allNullDrift)))]) ∧
        ∀ c ∈ df.map Prod.fst,
          ∃ mr card st, lookupStr quality c = some (.vDict
            [("missing_ratio", .vFloat mr), ("cardinality", .vInt card),
             ("stats", .vDict st)]) ∧
            st.map Prod.fst = ["mean", "std", "min", "max"]) ∧
    (∀ (df : List (String × NpArray)) (p rep : Val) (c : String),
      evaluate_dataset df (some p) = .ok rep →
      c ∈ df.map Prod.fst →
      containsStr (priorColsDict p) c = false →
      ∃ dl : List (String × Val),
        reportField rep "drift" = some (.vDict dl) ∧
        lookupStr dl c = some allNullDrift) := by
  constructor
  · intro df
    refine ⟨(sortStrings (df.map Prod.fst)).map
      (fun c => (c, qualityEntry df (rowCountOf df) c)), ?_, ?_⟩
    · unfold evaluate_dataset
      simp only [bind, Except.bind, pure, Except.pure, driftColumns_no_prior]
    · intro c hc
      have hcs : c ∈ sortStrings (df.map Prod.fst) := (mem_sortStrings _ c).2 hc
      rw [lookupStr_map_self _ _ c hcs]
      obtain ⟨mr, card, st, heq, hst⟩ := qualityEntry_shape df (rowCountOf df) c
      exact ⟨mr, card, st, by rw [heq], hst⟩
  · intro df p rep c h hc hpc
    unfold evaluate_dataset at h
    simp only [bind, Except.bind, pure, Except.pure] at h
    cases p with
    | vDict pd =>
        cases hcols : lookupStr pd "columns" with
        | none =>
            simp only [hcols] at h
            cases h1 : absCountDrift (rowCountOf df) ((lookupStr pd "row_count").getD .vNull) with
            | error e => simp only [h1] at h; cases h
            | ok rcd =>
                simp only [h1] at h
                cases h2 : absCountDrift df.length ((lookupStr pd "column_count").getD .vNull) with
                | error e => simp only [h2] at h; cases h
                | ok ccd =>
                    simp only [h2] at h
                    cases hd : driftColumns ((sortStrings (df.map Prod.fst)).map
                        (fun c2 => (c2, qualityEntry df (rowCountOf df) c2))) true []
                        (sortStrings (df.map Prod.fst)) with
                    | error e => simp only [hd] at h; cases h
                    | ok dl =>
                        simp only [hd] at h
                        cases h
                        obtain ⟨v, hde, hl⟩ := driftColumns_ok_lookup _ _ _ _ dl c hd
                          ((mem_sortStrings _ c).2 hc)
                        rw [driftEntry_absent _ _ c (by simp [containsStr, lookupStr])] at hde
                        cases hde
                        exact ⟨dl, by simp [reportField, lookupStr], hl⟩
        | some v =>
            cases v with
            | vDict pc =>
                simp only [hcols] at h
                have hpc2 : containsStr pc c = false := by
                  simpa [priorColsDict, hcols] using hpc
                cases h1 : absCountDrift (rowCountOf df) ((lookupStr pd "row_count").getD .vNull) with
                | error e => simp only [h1] at h; cases h
                | ok rcd =>
                    simp only [h1] at h
                    cases h2 : absCountDrift df.length ((lookupStr pd "column_count").getD .vNull) with
                    | error e => simp only [h2] at h; cases h
                    | ok ccd =>
                        simp only [h2] at h
                        cases hd : driftColumns ((sortStrings (df.map Prod.fst)).map
                            (fun c2 => (c2, qualityEntry df (rowCountOf df) c2))) true pc
                            (sortStrings (df.map Prod.fst)) with
                        | error e => simp only [hd] at h; cases h
                        | ok dl =>
                            simp only [hd] at h
                            cases h
                            obtain ⟨v, hde, hl⟩ := driftColumns_ok_lookup _ _ _ _ dl c hd
                              ((mem_sortStrings _ c).2 hc)
                            rw [driftEntry_absent _ _ c hpc2] at hde
                            cases hde
                            exact ⟨dl, by simp [reportField, lookupStr], hl⟩
            | vNull => simp only [hcols] at h; cases h
            | vBool b => simp only [hcols] at h; cases h
            | vInt n => simp only [hcols] at h; cases h
            | vFloat q => simp only [hcols] at h; cases h
            | vStr sx => simp only [hcols] at h; cases h
            | vList l => simp only [hcols] at h; cases h
    | vNull => cases h
    | vBool b => cases h
    | vInt n => cases h
    | vFloat q => cases h
    | vStr sx => cases h
    | vList l => cases h

/-- A one-column frame and a prior profile that does not record that
column. -/
def sampleFrame : List (String × NpArray) := [("x", ⟨.obj, [Cell.str "a"]⟩)]

def samplePrior : Val := .vDict [("columns", .vDict [])]

/-- The report produced for `sampleFrame` against `samplePrior`. -/
def sampleReport : Val :=
  .vDict
    [("row_count", .vInt 1),
     ("column_count", .vInt 1),
     ("dataset_drift", .vDict
        [("row_count_drift", .vNull), ("column_count_drift", .vNull)]),
     ("quality", .vDict
        [("x", .vDict
          [("missing_ratio", .vFloat 0),
           ("cardinality", .vInt 1),
           ("stats", .vDict
              [("mean", .vNull), ("std", .vNull), ("min", .vNull),
               ("max", .vNull)])])]),
     ("drift", .vDict [("x", allNullDrift)])]

/-- Witness for C8: the no-prior part instantiated at `sampleFrame`,
and the absent-column part instantiated at a concrete evaluation whose
prior profile does not record column `x`. -/
theorem drift_absent_without_prior_witness :
    (∃ quality : List (String × Val),
      evaluate_dataset sampleFrame Option.none = .ok (.vDict
        [("row_count", .vInt (rowCountOf sampleFrame : Int)),
         ("column_count", .vInt (sampleFrame.length : Int)),
         ("dataset_drift", .vDict
            [("row_count_drift", .vNull), ("column_count_drift", .vNull)]),
         ("quality", .vDict quality),
         ("drift", .vDict ((sortStrings (sampleFrame.map Prod.fst)).map
            fun c => (c, allNullDrift)))]) ∧
      ∀ c ∈ sampleFrame.map Prod.fst,
        ∃ mr card st, lookupStr quality c = some (.vDict
          [("missing_ratio", .vFloat mr), ("cardinality", .vInt card),
           ("stats", .vDict st)]) ∧
          st.map Prod.fst = ["mean", "std", "min", "max"]) ∧
    (evaluate_dataset sampleFrame (some samplePrior) = .ok sampleReport ∧
     ∃ dl : List (String × Val),
       reportField sampleReport "drift" = some (.vDict dl) ∧
       lookupStr dl "x" = some allNullDrift) := by
  have heval : evaluate_dataset sampleFrame (some samplePrior) = .ok sampleReport := by
    simp [sampleFrame, samplePrior, sampleReport, evaluate_dataset, qualityEntry,
      rowCountOf, sortStrings, insertSorted, driftColumns, driftEntry, allNullDrift,
      absCountDrift, containsStr, lookupStr, cellIsNa, isNumericKind, round6, pyRound,
      bind, Except.bind, pure, Except.pure]
  exact ⟨drift_absent_without_prior.1 sampleFrame,
    heval,
    drift_absent_without_prior.2 sampleFrame samplePrior sampleReport "x"
      heval (by decide) (by decide)⟩
